import Mathlib

/-!
# librocks.Net: the managed facade over the native key-value engine

A shallow embedding of `Kind.h`, `NativeBytes.h`, `KeyValueStore.h` and
`KeyValueStore.cpp`.

* A native pointer is `Option` of an address; `none` is `nullptr`.
* A managed handle (`T^`) is `Option` of an object; `none` is `nullptr`.
  A managed object carries the address `ref` it lives at, and
  `ReferenceEquals` compares addresses.
* The native engine (`::Kind`, `KVStore`, `bytes`, `RocksException`) is an
  external collaborator and is a parameter of every definition that calls it.
* A member function of the store takes the store and returns the store after
  the call together with what the call returned or threw.
-/

namespace librocks.Net

/-! ## Native side: the engine's `::Kind` -/

/-- One octet of a key or a value. -/
abbrev Byte := Fin 256

/-- Address of a native `::Kind` object; a `const ::Kind*` is an
`Option NativeKindPtr`, with `none` for `nullptr`. -/
abbrev NativeKindPtr := Nat

/-- The member functions of the engine's `::Kind` class (`api/Kind.h`) that the
facade calls, each taking the address of the object it is called on.
`equals` receives a `const ::Kind*`, which may be null. -/
structure NativeKind where
  /-- Member `name()`. -/
  name : NativeKindPtr → String
  /-- Member `isValid()`. -/
  isValid : NativeKindPtr → Bool
  /-- Member `equals(const ::Kind*)`. -/
  equals : NativeKindPtr → Option NativeKindPtr → Bool
  /-- Member `hash()`. -/
  hash : NativeKindPtr → Nat
  /-- Member `operator<`. -/
  lt : NativeKindPtr → NativeKindPtr → Bool
  /-- Member `toString()`. -/
  toString : NativeKindPtr → String

/-! ## `Kind.h` -/

/-- The managed `Kind` wrapper: the object at managed address `ref`, holding the
field `_nativePtr`. -/
structure Kind where
  /-- Managed address of the object; two handles are `ReferenceEquals` exactly
  when they have the same address -/
  ref : Nat
  /-- Field `const ::Kind* _nativePtr`. -/
  _nativePtr : Option NativeKindPtr
deriving DecidableEq, Repr

/-- What an `Object^` argument can refer to: a `Kind`, or an object of some other
class. -/
inductive Object where
  | kind (k : Kind)
  | other (ref : Nat)
deriving DecidableEq, Repr

namespace Object

/-- Managed address of an object. -/
def ref : Object → Nat
  | kind k => k.ref
  | other r => r

/-- Source: `dynamic_cast<Kind^>(obj)` on a non-null handle. -/
def asKind : Object → Option Kind
  | kind k => some k
  | other _ => none

end Object

/-- Narrowing `static_cast<int>` of an unsigned value: keep the low 32 bits and read them
as a two's complement number. -/
def toInt32 (n : Nat) : Int :=
  if n % 2 ^ 32 < 2 ^ 31 then (n % 2 ^ 32 : Nat) else ((n % 2 ^ 32 : Nat) : Int) - 2 ^ 32

namespace Kind

/-- Source: `Kind::Name::get`. -/
def Name (nk : NativeKind) (this : Kind) : String :=
  match this._nativePtr with
  | none => ""
  | some p => nk.name p

/-- Source: `Kind::IsValid::get`. -/
def IsValid (nk : NativeKind) (this : Kind) : Bool :=
  match this._nativePtr with
  | none => false
  | some p => nk.isValid p

/-- Source: `Kind::Equals(Object^)`. -/
def Equals (nk : NativeKind) (this : Kind) (obj : Option Object) : Bool :=
  match obj with
  | none => false
  | some o =>
    if this.ref = o.ref then true
    else
      match o.asKind with
      | none => false
      | some other =>
        match this._nativePtr with
        | none => false
        | some p => nk.equals p other._nativePtr

/-- Source: `Kind::GetHashCode()`. -/
def GetHashCode (nk : NativeKind) (this : Kind) : Int :=
  match this._nativePtr with
  | none => 0
  | some p => toInt32 (nk.hash p)

/-- Source: `Kind::ToString()`. -/
def ToString (nk : NativeKind) (this : Kind) : String :=
  match this._nativePtr with
  | none => "Disposed Kind"
  | some p => nk.toString p

/-- Source: `Kind::CompareTo(Kind^)`. -/
def CompareTo (nk : NativeKind) (this : Kind) (other : Option Kind) : Int :=
  match other with
  | none => 1
  | some o =>
    if this._nativePtr = o._nativePtr then 0
    else
      match this._nativePtr, o._nativePtr with
      | none, _ => -1
      | some _, none => 1
      | some p, some q =>
        if nk.lt p q then -1
        else if nk.lt q p then 1
        else 0

/-- Source: `Kind::operator <`. -/
def op_LessThan (nk : NativeKind) (a b : Option Kind) : Bool :=
  match a, b with
  | none, none => false
  | none, some _ => true
  | some _, none => false
  | some x, some y => if x.ref = y.ref then false else decide (CompareTo nk x (some y) < 0)

/-- Source: `Kind::operator >`. -/
def op_GreaterThan (nk : NativeKind) (a b : Option Kind) : Bool :=
  op_LessThan nk b a

/-- Source: `Kind::operator ==`. -/
def op_Equality (nk : NativeKind) (a b : Option Kind) : Bool :=
  match a, b with
  | none, none => true
  | none, some _ => false
  | some _, none => false
  | some x, some y => if x.ref = y.ref then true else Equals nk x (some (Object.kind y))

/-- Source: `Kind::operator !=`. -/
def op_Inequality (nk : NativeKind) (a b : Option Kind) : Bool :=
  !(op_Equality nk a b)

end Kind

/-! ## Native side: `bytes`, `RocksException`, `KVStore` -/

/-- The engine's `bytes` (`client/bytes.h`): `none` is the empty buffer, for which
`operator!` is true and `data()` is null; `some d` owns the region `d`, whose
length is `size()`. -/
abbrev bytes := Option (List Byte)

/-- How a call into native code ends: it returns, it throws a `RocksException`
with a status code and a message, or it throws something else. -/
inductive NativeOutcome (α : Type) where
  | returned (a : α)
  | rocksException (code : Int) (what : String)
  | otherException
deriving DecidableEq, Repr

/-- The member functions of the engine's `KVStore` class (`client/KVStore.h`)
over an engine state `E`. Each takes the state of the engine before the call and
gives the state after it and the outcome. -/
structure KVStore (E : Type) where
  /-- Constructor `KVStore(dbPath)`. -/
  create : String → NativeOutcome E
  /-- Member `isOpen()`. -/
  isOpen : E → Bool
  /-- Member `getDefaultKind()`. -/
  getDefaultKind : E → E × NativeOutcome NativeKindPtr
  /-- Member `getOrCreateKind(name)`. -/
  getOrCreateKind : E → String → E × NativeOutcome NativeKindPtr
  /-- Member `getKinds()`, in the iteration order of the returned set. -/
  getKinds : E → E × NativeOutcome (List NativeKindPtr)
  /-- Member `compact(kind)`. -/
  compact : E → NativeKindPtr → E × NativeOutcome Unit
  /-- Member `compactAll()`. -/
  compactAll : E → E × NativeOutcome Unit
  /-- Member `updateIfPresent(kind, key, value)`. -/
  updateIfPresent : E → NativeKindPtr → List Byte → List Byte → E × NativeOutcome bytes
  /-- Member `putIfAbsent(kind, key, value)`. -/
  putIfAbsent : E → NativeKindPtr → List Byte → List Byte → E × NativeOutcome Bool
  /-- Member `put(kind, key, value)`. -/
  put : E → NativeKindPtr → List Byte → List Byte → E × NativeOutcome Unit
  /-- Member `get(kind, key)`. -/
  get : E → NativeKindPtr → List Byte → E × NativeOutcome bytes
  /-- Member `singleRemoveIfPresent(kind, key)`. -/
  singleRemoveIfPresent : E → NativeKindPtr → List Byte → E × NativeOutcome bytes
  /-- Member `removeIfPresent(kind, key)`. -/
  removeIfPresent : E → NativeKindPtr → List Byte → E × NativeOutcome bytes
  /-- Member `singleRemove(kind, key)`. -/
  singleRemove : E → NativeKindPtr → List Byte → E × NativeOutcome Unit
  /-- Member `remove(kind, key)`. -/
  remove : E → NativeKindPtr → List Byte → E × NativeOutcome Unit
  /-- Member `findMinKey(kind)`. -/
  findMinKey : E → NativeKindPtr → E × NativeOutcome bytes
  /-- Member `findMaxKey(kind)`. -/
  findMaxKey : E → NativeKindPtr → E × NativeOutcome bytes

/-- Everything native the store depends on. -/
structure Native (E : Type) where
  /-- The `::Kind` class. -/
  kind : NativeKind
  /-- The `KVStore` class. -/
  store : KVStore E
  /-- Conversion `marshal::marshal_as<std::string>` of a managed string. -/
  marshal_as : String → String

/-- A call made on the engine's `KVStore`, with the arguments it was given. -/
inductive NativeCall where
  | create (dbPath : String)
  | destroy
  | getDefaultKind
  | getOrCreateKind (name : String)
  | getKinds
  | compact (kind : NativeKindPtr)
  | compactAll
  | updateIfPresent (kind : NativeKindPtr) (key value : List Byte)
  | putIfAbsent (kind : NativeKindPtr) (key value : List Byte)
  | put (kind : NativeKindPtr) (key value : List Byte)
  | get (kind : NativeKindPtr) (key : List Byte)
  | singleRemoveIfPresent (kind : NativeKindPtr) (key : List Byte)
  | removeIfPresent (kind : NativeKindPtr) (key : List Byte)
  | singleRemove (kind : NativeKindPtr) (key : List Byte)
  | remove (kind : NativeKindPtr) (key : List Byte)
  | findMinKey (kind : NativeKindPtr)
  | findMaxKey (kind : NativeKindPtr)
deriving DecidableEq, Repr

/-! ## What a member function can throw -/

/-- What leaves a member function otherwise than by `return`. The first five are
managed exceptions: four the facade throws itself, and
`ArgumentOutOfRangeException`, which the runtime throws when a span or a string
is built with a negative length. `nativeRocksException` and
`nativeOtherException` are native exceptions that no handler of the member
caught. `nullDereference` is the evaluation of `*p` for a null `p`, which C++
leaves undefined; the embedding stops there. -/
inductive Thrown where
  | ArgumentNullException (paramName : String)
  | ObjectDisposedException (objectName : String)
  | RocksDbException (code : Int) (message : String)
  | Exception (message : String)
  | ArgumentOutOfRangeException
  | nativeRocksException (code : Int) (what : String)
  | nativeOtherException
  | nullDereference
deriving DecidableEq, Repr

/-! ## `NativeBytes.h` -/

/-- The managed `NativeBytes` object: the field `_nativePtr`, and a count of the
`delete` expressions its finalizer has executed. -/
structure NativeBytes where
  /-- Field `bytes* _nativePtr`. -/
  _nativePtr : Option bytes
  /-- Number of times `delete _nativePtr` has run. -/
  deleted : Nat
deriving DecidableEq, Repr

namespace NativeBytes

/-- Constructor `NativeBytes(bytes&&)`: `_nativePtr = new bytes(std::move(native))`. -/
def ctor (native : bytes) : NativeBytes :=
  { _nativePtr := some native, deleted := 0 }

/-- Finalizer `!NativeBytes()`. -/
def Finalize (this : NativeBytes) : NativeBytes :=
  match this._nativePtr with
  | some _ => { _nativePtr := none, deleted := this.deleted + 1 }
  | none => this

/-- Destructor `~NativeBytes()`, which is `Dispose()`. -/
def Dispose (this : NativeBytes) : NativeBytes :=
  Finalize this

/-- The region of `length` bytes at the start of the buffer `d`, as
`ReadOnlySpan<Byte>(void*, int)` and `String(sbyte*, int, int, Encoding)` take
it: a negative length is refused. -/
def region (d : List Byte) (length : Int) : Except Thrown (List Byte) :=
  if length < 0 then .error .ArgumentOutOfRangeException else .ok (d.take length.toNat)

/-- Property `Span`: `ReadOnlySpan<Byte>((void*)_nativePtr->data(),
(int)_nativePtr->size())`, or the empty span when `_nativePtr` is null. -/
def Span (this : NativeBytes) : Except Thrown (List Byte) :=
  match this._nativePtr with
  | none => .ok []
  | some b => region (b.getD []) (toInt32 (b.getD []).length)

/-- Source: `NativeBytes::ToString()`, with the UTF-8 decoder as a parameter. -/
def ToString (utf8 : List Byte → String) (this : NativeBytes) : Except Thrown String :=
  match this._nativePtr with
  | none => .ok ""
  | some none => .ok ""
  | some (some d) => Except.map utf8 (region d (toInt32 d.length))

end NativeBytes

/-! ## `KeyValueStore.h`, `KeyValueStore.cpp` -/

/-- The handlers `catch (const RocksException& e)` and `catch (...)` that follow
a `try` block, the second throwing `Exception(message)`. -/
def translate {α : Type} (message : String) : NativeOutcome α → Except Thrown α
  | .returned a => .ok a
  | .rocksException code what => .error (.RocksDbException code what)
  | .otherException => .error (.Exception message)

/-- A native call outside any `try` block. -/
def uncaught {α : Type} : NativeOutcome α → Except Thrown α
  | .returned a => .ok a
  | .rocksException code what => .error (.nativeRocksException code what)
  | .otherException => .error .nativeOtherException

/-- The `std::string_view` built from a `ReadOnlySpan<Byte>`: the default, empty
view unless `Length > 0`. -/
def toStringView (span : List Byte) : List Byte :=
  if span.length > 0 then span else []

/-- The result handling `if (!result) return nullptr; return gcnew
NativeBytes(std::move(result));`. -/
def wrapBytes (result : bytes) : Option NativeBytes :=
  match result with
  | none => none
  | some d => some (NativeBytes.ctor (some d))

/-- The managed `KeyValueStore` object. -/
structure KeyValueStore (E : Type) where
  /-- Field `KVStore* _nativePtr`: the engine behind the handle, `none` for
  `nullptr`. -/
  _nativePtr : Option E
  /-- Field `ConcurrentDictionary<IntPtr, Kind^>^ _kindCache`, as the list of its
  entries in the order they were added; `none` for `nullptr`. -/
  _kindCache : Option (List (NativeKindPtr × Kind))
  /-- Number of `Kind` objects created by `gcnew` so far; the next one is placed
  at this managed address. -/
  allocated : Nat
  /-- The calls made on the engine so far, oldest first. -/
  calls : List NativeCall

namespace KeyValueStore

variable {E : Type}

/-- The store after a call on the engine that left the engine in state `e`. -/
def afterCall (this : KeyValueStore E) (e : E) (call : NativeCall) : KeyValueStore E :=
  { this with _nativePtr := some e, calls := this.calls ++ [call] }

/-- Constructor `KeyValueStore(String^ path)`. The object is handed to the caller
only when the constructor returns. -/
def ctor (n : Native E) (path : Option String) : Except Thrown (KeyValueStore E) :=
  match path with
  | none => .error (.ArgumentNullException "path")
  | some path =>
    let dbPath := n.marshal_as path
    match n.store.create dbPath with
    | .returned e =>
      .ok { _nativePtr := some e, _kindCache := none, allocated := 0,
            calls := [.create dbPath] }
    | .rocksException code what => .error (.RocksDbException code what)
    | .otherException =>
      .error (.Exception "An unknown error occurred during KeyValueStore initialization.")

/-- Finalizer `!KeyValueStore()`. -/
def Finalize (this : KeyValueStore E) : KeyValueStore E :=
  match this._nativePtr with
  | some _ =>
    { this with
      _kindCache := (match this._kindCache with
        | some _ => none
        | none => none),
      _nativePtr := none,
      calls := this.calls ++ [.destroy] }
  | none => this

/-- Destructor `~KeyValueStore()`, which is `Dispose()`. -/
def Dispose (this : KeyValueStore E) : KeyValueStore E :=
  Finalize this

/-- Source: `KeyValueStore::Close()`, which is `delete this`. -/
def Close (this : KeyValueStore E) : KeyValueStore E :=
  Dispose this

/-- Property `IsOpen`. -/
def IsOpen (n : Native E) (this : KeyValueStore E) : Bool :=
  match this._nativePtr with
  | none => false
  | some e => n.store.isOpen e

/-- Source: `KeyValueStore::ThrowIfDisposed()`; gives the engine behind the handle
when it does not throw. -/
def ThrowIfDisposed (this : KeyValueStore E) : Except Thrown E :=
  match this._nativePtr with
  | none => .error (.ObjectDisposedException "KeyValueStore")
  | some e => .ok e

/-- Source: `KeyValueStore::CreateKindWrapper(IntPtr)`: `gcnew Kind(nativePtr)` puts
a new object at the next free managed address. -/
def CreateKindWrapper (this : KeyValueStore E) (key : NativeKindPtr) :
    KeyValueStore E × Kind :=
  ({ this with allocated := this.allocated + 1 },
   { ref := this.allocated, _nativePtr := some key })

/-- Source: `KeyValueStore::WrapKind(const ::Kind*)`. `GetOrAdd` returns the value
stored under the key when there is one, and otherwise stores and returns what
the factory makes. -/
def WrapKind (this : KeyValueStore E) (nativePtr : Option NativeKindPtr) :
    KeyValueStore E × Option Kind :=
  match nativePtr with
  | none => (this, none)
  | some key =>
    let cache := (match this._kindCache with
      | none => []
      | some d => d)
    match cache.lookup key with
    | some k => ({ this with _kindCache := some cache }, some k)
    | none =>
      let made := CreateKindWrapper this key
      ({ made.1 with _kindCache := some (cache ++ [(key, made.2)]) }, some made.2)

/-- The loop of `GetKinds` over the native set: `managedList->Add(WrapKind(...))`
for each element. -/
def wrapEach (this : KeyValueStore E) :
    List NativeKindPtr → KeyValueStore E × List (Option Kind)
  | [] => (this, [])
  | p :: rest =>
    let w := WrapKind this (some p)
    let ws := wrapEach w.1 rest
    (ws.1, w.2 :: ws.2)

/-- Source: `KeyValueStore::GetDefaultKind()`. -/
def GetDefaultKind (n : Native E) (this : KeyValueStore E) :
    KeyValueStore E × Except Thrown (Option Kind) :=
  match ThrowIfDisposed this with
  | .error t => (this, .error t)
  | .ok e =>
    let r := n.store.getDefaultKind e
    let s := afterCall this r.1 .getDefaultKind
    match uncaught r.2 with
    | .error t => (s, .error t)
    | .ok nativeKind =>
      let w := WrapKind s (some nativeKind)
      (w.1, .ok w.2)

/-- Source: `KeyValueStore::GetOrCreateKind(String^)`. -/
def GetOrCreateKind (n : Native E) (this : KeyValueStore E) (kindName : Option String) :
    KeyValueStore E × Except Thrown (Option Kind) :=
  match ThrowIfDisposed this with
  | .error t => (this, .error t)
  | .ok e =>
    match kindName with
    | none => (this, .error (.ArgumentNullException "kindName"))
    | some kindName =>
      let colFamily := n.marshal_as kindName
      let r := n.store.getOrCreateKind e colFamily
      let s := afterCall this r.1 (.getOrCreateKind colFamily)
      match uncaught r.2 with
      | .error t => (s, .error t)
      | .ok nativeKind =>
        let w := WrapKind s (some nativeKind)
        (w.1, .ok w.2)

/-- Source: `KeyValueStore::GetKinds()`. -/
def GetKinds (n : Native E) (this : KeyValueStore E) :
    KeyValueStore E × Except Thrown (List (Option Kind)) :=
  match ThrowIfDisposed this with
  | .error t => (this, .error t)
  | .ok e =>
    let r := n.store.getKinds e
    let s := afterCall this r.1 .getKinds
    match uncaught r.2 with
    | .error t => (s, .error t)
    | .ok nativeSet =>
      let ws := wrapEach s nativeSet
      (ws.1, .ok ws.2)

/-- Source: `KeyValueStore::Compact(Kind^)`. -/
def Compact (n : Native E) (this : KeyValueStore E) (kind : Option Kind) :
    KeyValueStore E × Except Thrown Unit :=
  match ThrowIfDisposed this with
  | .error t => (this, .error t)
  | .ok e =>
    match kind with
    | none => (this, .error (.ArgumentNullException "kind"))
    | some kind =>
      match kind._nativePtr with
      | none => (this, .ok ())
      | some pKind =>
        if n.kind.isValid pKind then
          let r := n.store.compact e pKind
          (afterCall this r.1 (.compact pKind),
           translate ("An unexpected error occurred during compaction of : "
             ++ Kind.Name n.kind kind) r.2)
        else (this, .ok ())

/-- Source: `KeyValueStore::CompactAll()`. -/
def CompactAll (n : Native E) (this : KeyValueStore E) :
    KeyValueStore E × Except Thrown Unit :=
  match ThrowIfDisposed this with
  | .error t => (this, .error t)
  | .ok e =>
    let r := n.store.compactAll e
    (afterCall this r.1 .compactAll,
     translate "An unexpected error occurred during CompactAll() compaction." r.2)

/-- Source: `KeyValueStore::UpdateIfPresent(Kind^, ReadOnlySpan<Byte>, ReadOnlySpan<Byte>)`. -/
def UpdateIfPresent (n : Native E) (this : KeyValueStore E) (kind : Option Kind)
    (key value : List Byte) : KeyValueStore E × Except Thrown (Option NativeBytes) :=
  match ThrowIfDisposed this with
  | .error t => (this, .error t)
  | .ok e =>
    match kind with
    | none => (this, .error (.ArgumentNullException "kind"))
    | some kind =>
      let nativeKeyView := toStringView key
      let nativeValueView := toStringView value
      match kind._nativePtr with
      | none => (this, .error .nullDereference)
      | some pKind =>
        let r := n.store.updateIfPresent e pKind nativeKeyView nativeValueView
        (afterCall this r.1 (.updateIfPresent pKind nativeKeyView nativeValueView),
         Except.map wrapBytes (translate "An unexpected error occurred during UpdateIfPresent() operation." r.2))

/-- Source: `KeyValueStore::PutIfAbsent(Kind^, ReadOnlySpan<Byte>, ReadOnlySpan<Byte>)`. -/
def PutIfAbsent (n : Native E) (this : KeyValueStore E) (kind : Option Kind)
    (key value : List Byte) : KeyValueStore E × Except Thrown Bool :=
  match ThrowIfDisposed this with
  | .error t => (this, .error t)
  | .ok e =>
    match kind with
    | none => (this, .error (.ArgumentNullException "kind"))
    | some kind =>
      let nativeKeyView := toStringView key
      let nativeValueView := toStringView value
      match kind._nativePtr with
      | none => (this, .error .nullDereference)
      | some pKind =>
        let r := n.store.putIfAbsent e pKind nativeKeyView nativeValueView
        (afterCall this r.1 (.putIfAbsent pKind nativeKeyView nativeValueView),
         (translate "An unexpected error occurred during PutIfAbsent() operation." r.2))

/-- Source: `KeyValueStore::Put(Kind^, ReadOnlySpan<Byte>, ReadOnlySpan<Byte>)`. -/
def Put (n : Native E) (this : KeyValueStore E) (kind : Option Kind)
    (key value : List Byte) : KeyValueStore E × Except Thrown Unit :=
  match ThrowIfDisposed this with
  | .error t => (this, .error t)
  | .ok e =>
    match kind with
    | none => (this, .error (.ArgumentNullException "kind"))
    | some kind =>
      let nativeKeyView := toStringView key
      let nativeValueView := toStringView value
      match kind._nativePtr with
      | none => (this, .error .nullDereference)
      | some pKind =>
        let r := n.store.put e pKind nativeKeyView nativeValueView
        (afterCall this r.1 (.put pKind nativeKeyView nativeValueView),
         (translate "An unexpected error occurred during Put() operation." r.2))

/-- Source: `KeyValueStore::Get(Kind^, ReadOnlySpan<Byte>)`. -/
def Get (n : Native E) (this : KeyValueStore E) (kind : Option Kind)
    (key : List Byte) : KeyValueStore E × Except Thrown (Option NativeBytes) :=
  match ThrowIfDisposed this with
  | .error t => (this, .error t)
  | .ok e =>
    match kind with
    | none => (this, .error (.ArgumentNullException "kind"))
    | some kind =>
      let nativeKeyView := toStringView key
      match kind._nativePtr with
      | none => (this, .error .nullDereference)
      | some pKind =>
        let r := n.store.get e pKind nativeKeyView
        (afterCall this r.1 (.get pKind nativeKeyView),
         Except.map wrapBytes (translate "An unexpected error occurred during Get() operation." r.2))

/-- Source: `KeyValueStore::SingleRemoveIfPresent(Kind^, ReadOnlySpan<Byte>)`. -/
def SingleRemoveIfPresent (n : Native E) (this : KeyValueStore E) (kind : Option Kind)
    (key : List Byte) : KeyValueStore E × Except Thrown (Option NativeBytes) :=
  match ThrowIfDisposed this with
  | .error t => (this, .error t)
  | .ok e =>
    match kind with
    | none => (this, .error (.ArgumentNullException "kind"))
    | some kind =>
      let nativeKeyView := toStringView key
      match kind._nativePtr with
      | none => (this, .error .nullDereference)
      | some pKind =>
        let r := n.store.singleRemoveIfPresent e pKind nativeKeyView
        (afterCall this r.1 (.singleRemoveIfPresent pKind nativeKeyView),
         Except.map wrapBytes (translate "An unexpected error occurred during SingleRemoveIfPresent() operation." r.2))

/-- Source: `KeyValueStore::RemoveIfPresent(Kind^, ReadOnlySpan<Byte>)`. -/
def RemoveIfPresent (n : Native E) (this : KeyValueStore E) (kind : Option Kind)
    (key : List Byte) : KeyValueStore E × Except Thrown (Option NativeBytes) :=
  match ThrowIfDisposed this with
  | .error t => (this, .error t)
  | .ok e =>
    match kind with
    | none => (this, .error (.ArgumentNullException "kind"))
    | some kind =>
      let nativeKeyView := toStringView key
      match kind._nativePtr with
      | none => (this, .error .nullDereference)
      | some pKind =>
        let r := n.store.removeIfPresent e pKind nativeKeyView
        (afterCall this r.1 (.removeIfPresent pKind nativeKeyView),
         Except.map wrapBytes (translate "An unexpected error occurred during RemoveIfPresent() operation." r.2))

/-- Source: `KeyValueStore::SingleRemove(Kind^, ReadOnlySpan<Byte>)`. -/
def SingleRemove (n : Native E) (this : KeyValueStore E) (kind : Option Kind)
    (key : List Byte) : KeyValueStore E × Except Thrown Unit :=
  match ThrowIfDisposed this with
  | .error t => (this, .error t)
  | .ok e =>
    match kind with
    | none => (this, .error (.ArgumentNullException "kind"))
    | some kind =>
      let nativeKeyView := toStringView key
      match kind._nativePtr with
      | none => (this, .error .nullDereference)
      | some pKind =>
        let r := n.store.singleRemove e pKind nativeKeyView
        (afterCall this r.1 (.singleRemove pKind nativeKeyView),
         (translate "An unexpected error occurred during SingleRemove() operation." r.2))

/-- Source: `KeyValueStore::Remove(Kind^, ReadOnlySpan<Byte>)`. -/
def Remove (n : Native E) (this : KeyValueStore E) (kind : Option Kind)
    (key : List Byte) : KeyValueStore E × Except Thrown Unit :=
  match ThrowIfDisposed this with
  | .error t => (this, .error t)
  | .ok e =>
    match kind with
    | none => (this, .error (.ArgumentNullException "kind"))
    | some kind =>
      let nativeKeyView := toStringView key
      match kind._nativePtr with
      | none => (this, .error .nullDereference)
      | some pKind =>
        let r := n.store.remove e pKind nativeKeyView
        (afterCall this r.1 (.remove pKind nativeKeyView),
         (translate "An unexpected error occurred during Remove() operation." r.2))

/-- Source: `KeyValueStore::FindMinKey(Kind^)`. -/
def FindMinKey (n : Native E) (this : KeyValueStore E) (kind : Option Kind) :
    KeyValueStore E × Except Thrown (Option NativeBytes) :=
  match ThrowIfDisposed this with
  | .error t => (this, .error t)
  | .ok e =>
    match kind with
    | none => (this, .error (.ArgumentNullException "kind"))
    | some kind =>
      match kind._nativePtr with
      | none => (this, .error .nullDereference)
      | some pKind =>
        let r := n.store.findMinKey e pKind
        (afterCall this r.1 (.findMinKey pKind),
         Except.map wrapBytes (translate "An unexpected error occurred during FindMinKey() operation." r.2))

/-- Source: `KeyValueStore::FindMaxKey(Kind^)`. -/
def FindMaxKey (n : Native E) (this : KeyValueStore E) (kind : Option Kind) :
    KeyValueStore E × Except Thrown (Option NativeBytes) :=
  match ThrowIfDisposed this with
  | .error t => (this, .error t)
  | .ok e =>
    match kind with
    | none => (this, .error (.ArgumentNullException "kind"))
    | some kind =>
      match kind._nativePtr with
      | none => (this, .error .nullDereference)
      | some pKind =>
        let r := n.store.findMaxKey e pKind
        (afterCall this r.1 (.findMaxKey pKind),
         Except.map wrapBytes (translate "An unexpected error occurred during FindMaxKey() operation." r.2))

end KeyValueStore

/-- One call of a public member function of an existing store, with its
arguments. -/
inductive Op where
  | GetDefaultKind
  | GetOrCreateKind (kindName : Option String)
  | GetKinds
  | Compact (kind : Option Kind)
  | CompactAll
  | UpdateIfPresent (kind : Option Kind) (key value : List Byte)
  | PutIfAbsent (kind : Option Kind) (key value : List Byte)
  | Put (kind : Option Kind) (key value : List Byte)
  | Get (kind : Option Kind) (key : List Byte)
  | SingleRemoveIfPresent (kind : Option Kind) (key : List Byte)
  | RemoveIfPresent (kind : Option Kind) (key : List Byte)
  | SingleRemove (kind : Option Kind) (key : List Byte)
  | Remove (kind : Option Kind) (key : List Byte)
  | FindMinKey (kind : Option Kind)
  | FindMaxKey (kind : Option Kind)
deriving DecidableEq, Repr

/-- What a public member function returns. -/
inductive Value where
  | kind (k : Option Kind)
  | kinds (ks : List (Option Kind))
  | void
  | bool (b : Bool)
  | bytes (b : Option NativeBytes)
deriving DecidableEq, Repr

namespace Op

variable {E : Type}

/-- The store after a call, with a returned value of any type as a `Value`. -/
def pack {α : Type} (f : α → Value) (r : KeyValueStore E × Except Thrown α) :
    KeyValueStore E × Except Thrown Value :=
  (r.1, Except.map f r.2)

/-- Dispatch of a call to the member function it names. -/
def run (n : Native E) (this : KeyValueStore E) : Op → KeyValueStore E × Except Thrown Value
  | GetDefaultKind => pack Value.kind (KeyValueStore.GetDefaultKind n this)
  | GetOrCreateKind kindName => pack Value.kind (KeyValueStore.GetOrCreateKind n this kindName)
  | GetKinds => pack Value.kinds (KeyValueStore.GetKinds n this)
  | Compact kind => pack (fun _ => Value.void) (KeyValueStore.Compact n this kind)
  | CompactAll => pack (fun _ => Value.void) (KeyValueStore.CompactAll n this)
  | UpdateIfPresent kind key value =>
    pack Value.bytes (KeyValueStore.UpdateIfPresent n this kind key value)
  | PutIfAbsent kind key value =>
    pack Value.bool (KeyValueStore.PutIfAbsent n this kind key value)
  | Put kind key value => pack (fun _ => Value.void) (KeyValueStore.Put n this kind key value)
  | Get kind key => pack Value.bytes (KeyValueStore.Get n this kind key)
  | SingleRemoveIfPresent kind key =>
    pack Value.bytes (KeyValueStore.SingleRemoveIfPresent n this kind key)
  | RemoveIfPresent kind key => pack Value.bytes (KeyValueStore.RemoveIfPresent n this kind key)
  | SingleRemove kind key =>
    pack (fun _ => Value.void) (KeyValueStore.SingleRemove n this kind key)
  | Remove kind key => pack (fun _ => Value.void) (KeyValueStore.Remove n this kind key)
  | FindMinKey kind => pack Value.bytes (KeyValueStore.FindMinKey n this kind)
  | FindMaxKey kind => pack Value.bytes (KeyValueStore.FindMaxKey n this kind)

/-- The wrappers a returned value hands to the caller. -/
def wrappers : Except Thrown Value → List Kind
  | .ok (Value.kind (some k)) => [k]
  | .ok (Value.kinds ks) => ks.filterMap id
  | _ => []

/-- A sequence of calls made one after the other on the same store: the store
at the end and what each call returned or threw, in order. -/
def runAll (n : Native E) (this : KeyValueStore E) :
    List Op → KeyValueStore E × List (Except Thrown Value)
  | [] => (this, [])
  | op :: rest =>
    let r := run n this op
    let rs := runAll n r.1 rest
    (rs.1, r.2 :: rs.2)

end Op

/-! ## Properties of a store that the theorems speak about -/

namespace KeyValueStore

variable {E : Type}

/-- The wrapper the kind cache holds for a native identity, if any. -/
def cached (this : KeyValueStore E) (p : NativeKindPtr) : Option Kind :=
  match this._kindCache with
  | none => none
  | some d => d.lookup p

/-- The native identities the kind cache has an entry for, one per entry. -/
def cacheKeys (this : KeyValueStore E) : List NativeKindPtr :=
  match this._kindCache with
  | none => []
  | some d => d.map Prod.fst

/-- The state of the kind cache as `WrapKind` leaves it: no identity has two
entries, and the wrapper entered for an identity is a wrapper of that identity. -/
def CacheWF (this : KeyValueStore E) : Prop :=
  (cacheKeys this).Nodup ∧ ∀ p k, cached this p = some k → k._nativePtr = some p

/-- The cache of `after` keeps every entry of the cache of `before`. -/
def CacheKept (before after : KeyValueStore E) : Prop :=
  ∀ p k, cached before p = some k → cached after p = some k

/-- Each wrapper of a list carries a native identity and is the entry the cache
holds for that identity. -/
def AllCached (this : KeyValueStore E) (ws : List Kind) : Prop :=
  ∀ w ∈ ws, ∃ p, w._nativePtr = some p ∧ cached this p = some w

/-- The lifetime of the native handle as the constructor and the member functions
leave it: while the store has a handle the engine has not been destroyed, and
once the store has none it has no kind cache either and the engine has been
destroyed once. -/
def HandleWF (this : KeyValueStore E) : Prop :=
  match this._nativePtr with
  | some _ => this.calls.count NativeCall.destroy = 0
  | none => this._kindCache = none ∧ this.calls.count NativeCall.destroy = 1

end KeyValueStore

namespace Op

/-- The `kind` argument of a kind-qualified operation other than `Compact`;
`none` for the other operations. -/
def kindArg : Op → Option (Option Kind)
  | UpdateIfPresent kind _ _ => some kind
  | PutIfAbsent kind _ _ => some kind
  | Put kind _ _ => some kind
  | Get kind _ => some kind
  | SingleRemoveIfPresent kind _ => some kind
  | RemoveIfPresent kind _ => some kind
  | SingleRemove kind _ => some kind
  | Remove kind _ => some kind
  | FindMinKey kind => some kind
  | FindMaxKey kind => some kind
  | _ => none

end Op

/-- The outcome of a native call with what it returned passed through `f`. -/
def NativeOutcome.map {α β : Type} (f : α → β) : NativeOutcome α → NativeOutcome β
  | .returned a => .returned (f a)
  | .rocksException code what => .rocksException code what
  | .otherException => .otherException

/-- The engine operation that belongs to a kind-qualified operation other than
`Compact`, as the spec pairs them by name: the call with the native identity `p`
of the kind and the key and value of the caller, the state of the engine after
the call, and its outcome with what it returned as the facade hands it on.
Absent for the other operations. -/
def Op.engineCall {E : Type} (n : Native E) (e : E) (p : NativeKindPtr) :
    Op → Option (NativeCall × E × NativeOutcome Value)
  | Op.UpdateIfPresent _ key value =>
    some (NativeCall.updateIfPresent p key value,
      (n.store.updateIfPresent e p key value).1,
      (n.store.updateIfPresent e p key value).2.map (fun b => Value.bytes (wrapBytes b)))
  | Op.PutIfAbsent _ key value =>
    some (NativeCall.putIfAbsent p key value,
      (n.store.putIfAbsent e p key value).1,
      (n.store.putIfAbsent e p key value).2.map Value.bool)
  | Op.Put _ key value =>
    some (NativeCall.put p key value,
      (n.store.put e p key value).1,
      (n.store.put e p key value).2.map (fun _ => Value.void))
  | Op.Get _ key =>
    some (NativeCall.get p key,
      (n.store.get e p key).1,
      (n.store.get e p key).2.map (fun b => Value.bytes (wrapBytes b)))
  | Op.SingleRemoveIfPresent _ key =>
    some (NativeCall.singleRemoveIfPresent p key,
      (n.store.singleRemoveIfPresent e p key).1,
      (n.store.singleRemoveIfPresent e p key).2.map (fun b => Value.bytes (wrapBytes b)))
  | Op.RemoveIfPresent _ key =>
    some (NativeCall.removeIfPresent p key,
      (n.store.removeIfPresent e p key).1,
      (n.store.removeIfPresent e p key).2.map (fun b => Value.bytes (wrapBytes b)))
  | Op.SingleRemove _ key =>
    some (NativeCall.singleRemove p key,
      (n.store.singleRemove e p key).1,
      (n.store.singleRemove e p key).2.map (fun _ => Value.void))
  | Op.Remove _ key =>
    some (NativeCall.remove p key,
      (n.store.remove e p key).1,
      (n.store.remove e p key).2.map (fun _ => Value.void))
  | Op.FindMinKey _ =>
    some (NativeCall.findMinKey p,
      (n.store.findMinKey e p).1,
      (n.store.findMinKey e p).2.map (fun b => Value.bytes (wrapBytes b)))
  | Op.FindMaxKey _ =>
    some (NativeCall.findMaxKey p,
      (n.store.findMaxKey e p).1,
      (n.store.findMaxKey e p).2.map (fun b => Value.bytes (wrapBytes b)))
  | _ => none

/-- The native identity a call on the engine was given, if it takes one. -/
def NativeCall.kindOf : NativeCall → Option NativeKindPtr
  | compact kind => some kind
  | updateIfPresent kind _ _ => some kind
  | putIfAbsent kind _ _ => some kind
  | put kind _ _ => some kind
  | get kind _ => some kind
  | singleRemoveIfPresent kind _ => some kind
  | removeIfPresent kind _ => some kind
  | singleRemove kind _ => some kind
  | remove kind _ => some kind
  | findMinKey kind => some kind
  | findMaxKey kind => some kind
  | _ => none

/-! ## Concrete engines, for evaluating the facade -/

/-- A `::Kind` class whose objects are ordered, compared and hashed by address,
with a given validity test. -/
def kindsByAddress (valid : NativeKindPtr → Bool) : NativeKind where
  name p := "kind" ++ toString p
  isValid := valid
  equals p o := decide (o = some p)
  hash p := p + 4294967295
  lt p q := decide (p < q)
  toString p := "Kind(" ++ toString p ++ ")"

/-- A `::Kind` class whose `equals` accepts every pointer, the null pointer
included, with a given validity test; all its objects have the same hash, and
none is ordered before another. -/
def kindsAllEqual (valid : NativeKindPtr → Bool) : NativeKind where
  name _ := "kind"
  isValid := valid
  equals _ _ := true
  hash _ := 1
  lt _ _ := false
  toString _ := "Kind"

/-- Byte-wise lexicographic order on keys. -/
def keyLt : List Byte → List Byte → Bool
  | [], [] => false
  | [], _ :: _ => true
  | _ :: _, [] => false
  | a :: as, b :: bs => if a < b then true else if b < a then false else keyLt as bs

/-- An in-memory engine: the names of its kinds, the kind at address `i` being
the one named `names[i]`, and under each pair of kind and key at most one
value. -/
structure MapEngine where
  /-- Names of the kinds, by address. -/
  names : List String
  /-- The stored pairs, each under its kind and key. -/
  content : List ((NativeKindPtr × List Byte) × List Byte)
deriving DecidableEq, Repr

namespace MapEngine

/-- The value stored under a kind and key. -/
def find (e : MapEngine) (k : NativeKindPtr) (key : List Byte) : bytes :=
  e.content.lookup (k, key)

/-- The engine without the pair under a kind and key. -/
def erase (e : MapEngine) (k : NativeKindPtr) (key : List Byte) : MapEngine :=
  { e with content := e.content.filter (fun x => !(x.1 == (k, key))) }

/-- The engine with a value stored under a kind and key. -/
def insert (e : MapEngine) (k : NativeKindPtr) (key value : List Byte) : MapEngine :=
  { e with content := ((k, key), value) :: (erase e k key).content }

/-- The keys stored under a kind. -/
def keysOf (e : MapEngine) (k : NativeKindPtr) : List (List Byte) :=
  (e.content.filter (fun x => x.1.1 == k)).map (fun x => x.1.2)

/-- The first key of a list in a given order. -/
def first (lt : List Byte → List Byte → Bool) : List (List Byte) → bytes
  | [] => none
  | key :: rest =>
    match first lt rest with
    | none => some key
    | some m => if lt key m then some key else some m

/-- The `KVStore` members over the in-memory engine; no call fails. -/
def store : KVStore MapEngine where
  create _ := .returned { names := ["default"], content := [] }
  isOpen _ := true
  getDefaultKind e := (e, .returned 0)
  getOrCreateKind e name :=
    if name ∈ e.names then (e, .returned (e.names.indexOf name))
    else ({ e with names := e.names ++ [name] }, .returned e.names.length)
  getKinds e := (e, .returned (List.range e.names.length))
  compact e _ := (e, .returned ())
  compactAll e := (e, .returned ())
  updateIfPresent e k key value :=
    match find e k key with
    | none => (e, .returned none)
    | some old => (insert e k key value, .returned (some old))
  putIfAbsent e k key value :=
    match find e k key with
    | none => (insert e k key value, .returned true)
    | some _ => (e, .returned false)
  put e k key value := (insert e k key value, .returned ())
  get e k key := (e, .returned (find e k key))
  singleRemoveIfPresent e k key := (erase e k key, .returned (find e k key))
  removeIfPresent e k key := (erase e k key, .returned (find e k key))
  singleRemove e k key := (erase e k key, .returned ())
  remove e k key := (erase e k key, .returned ())
  findMinKey e k := (e, .returned (first keyLt (keysOf e k)))
  findMaxKey e k := (e, .returned (first (fun a b => keyLt b a) (keysOf e k)))

end MapEngine

/-- The in-memory engine with kinds compared by address, those below address
`100` being valid, and strings marshalled unchanged. -/
def mapNative : Native MapEngine where
  kind := kindsByAddress (fun p => decide (p < 100))
  store := MapEngine.store
  marshal_as := id

/-- An engine every call on which, after a successful construction, throws a
`RocksException` with a given status code and message. -/
def failingStore (code : Int) (what : String) : KVStore Unit where
  create _ := .returned ()
  isOpen _ := true
  getDefaultKind e := (e, .rocksException code what)
  getOrCreateKind e _ := (e, .rocksException code what)
  getKinds e := (e, .rocksException code what)
  compact e _ := (e, .rocksException code what)
  compactAll e := (e, .rocksException code what)
  updateIfPresent e _ _ _ := (e, .rocksException code what)
  putIfAbsent e _ _ _ := (e, .rocksException code what)
  put e _ _ _ := (e, .rocksException code what)
  get e _ _ := (e, .rocksException code what)
  singleRemoveIfPresent e _ _ := (e, .rocksException code what)
  removeIfPresent e _ _ := (e, .rocksException code what)
  singleRemove e _ _ := (e, .rocksException code what)
  remove e _ _ := (e, .rocksException code what)
  findMinKey e _ := (e, .rocksException code what)
  findMaxKey e _ := (e, .rocksException code what)

/-- The failing engine with kinds compared by address and all valid. -/
def failingNative (code : Int) (what : String) : Native Unit where
  kind := kindsByAddress (fun _ => true)
  store := failingStore code what
  marshal_as := id

/-- The store a successful `KeyValueStore("db")` gives over the in-memory
engine. -/
def openedMap : KeyValueStore MapEngine :=
  { _nativePtr := some { names := ["default"], content := [] }, _kindCache := none,
    allocated := 0, calls := [.create "db"] }

/-- The store a successful `KeyValueStore("db")` gives over the failing engine. -/
def openedFailing : KeyValueStore Unit :=
  { _nativePtr := some (), _kindCache := none, allocated := 0, calls := [.create "db"] }

/-! ## `WrapKind` executed by several threads

The statements of `KeyValueStore::WrapKind` as the steps of a thread. The threads
share the field `_kindCache`, the dictionaries it can refer to, and the managed
heap on which `gcnew Kind` places its objects. `GetOrAdd` is one step with the
outcome its contract gives: the value stored under the key when there is one,
and otherwise a new value, which it stores. -/

/-- A thread inside `WrapKind`: the statement it executes next, or how its call
ended. -/
inductive WrapThread where
  /-- Next: `if (nativePtr == nullptr) return nullptr;`. -/
  | entry (nativePtr : Option NativeKindPtr)
  /-- Next: the test `if (!_kindCache)`. -/
  | test (key : NativeKindPtr)
  /-- Next: `_kindCache = gcnew ConcurrentDictionary<IntPtr, Kind^>(...)`. -/
  | create (key : NativeKindPtr)
  /-- Next: `return _kindCache->GetOrAdd(key, ...)`. -/
  | getOrAdd (key : NativeKindPtr)
  /-- The call has returned `result` for the argument `nativePtr`. -/
  | returned (nativePtr : Option NativeKindPtr) (result : Option Kind)
  /-- The call has ended in `_kindCache->GetOrAdd` on a null handle. -/
  | nullReference
deriving DecidableEq, Repr

/-- What the threads inside `WrapKind` share. -/
structure SharedCache where
  /-- The `ConcurrentDictionary` objects created so far, each at the managed
  address that is its position in the list, as the list of its entries. -/
  dictionaries : List (List (NativeKindPtr × Kind))
  /-- Field `_kindCache`: the address of a dictionary, `none` for `nullptr`. -/
  _kindCache : Option Nat
  /-- Number of `Kind` objects created by `gcnew` so far. -/
  allocated : Nat
deriving DecidableEq, Repr

namespace WrapThread

/-- One statement of `WrapKind`, executed by a thread on the shared state. -/
def step (sh : SharedCache) : WrapThread → SharedCache × WrapThread
  | entry none => (sh, returned none none)
  | entry (some key) => (sh, test key)
  | test key =>
    match sh._kindCache with
    | none => (sh, create key)
    | some _ => (sh, getOrAdd key)
  | create key =>
    ({ sh with dictionaries := sh.dictionaries ++ [[]],
               _kindCache := some sh.dictionaries.length },
     getOrAdd key)
  | getOrAdd key =>
    match sh._kindCache with
    | none => (sh, nullReference)
    | some a =>
      let d := sh.dictionaries.getD a []
      match d.lookup key with
      | some k => (sh, returned (some key) (some k))
      | none =>
        ({ sh with dictionaries := sh.dictionaries.set a (d ++ [(key, ⟨sh.allocated, some key⟩)]),
                   allocated := sh.allocated + 1 },
         returned (some key) (some ⟨sh.allocated, some key⟩))
  | returned nativePtr result => (sh, returned nativePtr result)
  | nullReference => (sh, nullReference)

end WrapThread

/-- Several threads inside `WrapKind` of the same store. -/
structure WrapThreads where
  /-- What the threads share. -/
  shared : SharedCache
  /-- The threads, by number. -/
  threads : List WrapThread
deriving DecidableEq, Repr

namespace WrapThreads

/-- The threads at the moment each has just called `WrapKind` with its argument, on
a store in a given state. -/
def start {E : Type} (s : KeyValueStore E) (args : List (Option NativeKindPtr)) : WrapThreads :=
  { shared :=
      { dictionaries := (match s._kindCache with
          | none => []
          | some d => [d]),
        _kindCache := (match s._kindCache with
          | none => none
          | some _ => some 0),
        allocated := s.allocated },
    threads := args.map WrapThread.entry }

/-- Thread number `i` executes its next statement; no such thread, no change. -/
def step (sys : WrapThreads) (i : Nat) : WrapThreads :=
  match sys.threads[i]? with
  | none => sys
  | some t =>
    { shared := (t.step sys.shared).1, threads := sys.threads.set i (t.step sys.shared).2 }

/-- An interleaving: the threads execute one statement at a time in the order a
schedule names them. -/
def run (sys : WrapThreads) : List Nat → WrapThreads
  | [] => sys
  | i :: rest => run (step sys i) rest

/-- The entries of the dictionary the field `_kindCache` refers to. -/
def cache (sys : WrapThreads) : Option (List (NativeKindPtr × Kind)) :=
  match sys.shared._kindCache with
  | none => none
  | some a => some (sys.shared.dictionaries.getD a [])

/-- Threads at work on a cache that exists: the field refers to the dictionary at
address `a`, whose entries are `d`; no thread is about to create a dictionary or
has ended on a null handle; and a thread that has returned for a non-null
pointer has returned the wrapper the dictionary holds for it. -/
def Settled (sys : WrapThreads) (a : Nat) (d : List (NativeKindPtr × Kind)) : Prop :=
  sys.shared._kindCache = some a ∧ a < sys.shared.dictionaries.length ∧
  sys.shared.dictionaries.getD a [] = d ∧
  ∀ t ∈ sys.threads, (∀ key, t ≠ WrapThread.create key) ∧ t ≠ WrapThread.nullReference ∧
    ∀ p r, t = WrapThread.returned (some p) r → ∃ k, r = some k ∧ d.lookup p = some k

end WrapThreads

/-! ## Theorems: `Kind` -/

/-- The narrowed value lies in the range of a 32-bit signed integer and differs
from the value narrowed by a multiple of `2 ^ 32`. -/
theorem toInt32_spec (n : Nat) :
    -(2 : Int) ^ 31 ≤ toInt32 n ∧ toInt32 n < 2 ^ 31 ∧ (toInt32 n - n) % 2 ^ 32 = 0 := by
  unfold toInt32
  split <;> omega

/-- Kinds compared by address: `equals` accepts exactly the identity itself, so it
agrees with the order, which is strict, and it accepts no null pointer; equal
identities have equal hashes. -/
theorem kindsByAddress_laws (valid : NativeKindPtr → Bool) :
    (∀ p o, (kindsByAddress valid).equals p o = true ↔
      ∃ q, o = some q ∧ (kindsByAddress valid).lt p q = false ∧
        (kindsByAddress valid).lt q p = false) ∧
    (∀ p, (kindsByAddress valid).lt p p = false) ∧
    (∀ p o, (kindsByAddress valid).equals p o = true →
      ∃ q, o = some q ∧ (kindsByAddress valid).hash p = (kindsByAddress valid).hash q) := by
  refine ⟨?_, ?_, ?_⟩
  · intro p o
    simp only [kindsByAddress, decide_eq_true_eq, decide_eq_false_iff_not, not_lt]
    constructor
    · rintro rfl
      exact ⟨p, rfl, le_refl _, le_refl _⟩
    · rintro ⟨q, rfl, h1, h2⟩
      exact congrArg some (le_antisymm h1 h2)
  · intro p
    simp [kindsByAddress]
  · intro p o
    simp only [kindsByAddress, decide_eq_true_eq]
    rintro rfl
    exact ⟨p, rfl, rfl⟩

/-- The `::Kind` class whose `equals` accepts every pointer gives equal identities
equal hashes, and its `equals` agrees with its order, which is strict; yet it
accepts the null pointer. -/
theorem kindsAllEqual_laws (valid : NativeKindPtr → Bool) :
    (∀ p q, (kindsAllEqual valid).equals p (some q) = true →
      (kindsAllEqual valid).hash p = (kindsAllEqual valid).hash q) ∧
    (∀ p q, (kindsAllEqual valid).equals p (some q) = true ↔
      ((kindsAllEqual valid).lt p q = false ∧ (kindsAllEqual valid).lt q p = false)) ∧
    (∀ p, (kindsAllEqual valid).lt p p = false) ∧
    (∀ p, (kindsAllEqual valid).equals p none = true) := by
  refine ⟨fun _ _ _ => rfl, fun _ _ => ⟨fun _ => ⟨rfl, rfl⟩, fun _ => rfl⟩, fun _ => rfl,
    fun _ => rfl⟩

/-- C4, as the code has it: two distinct wrappers neither of which carries a native
identity are not `Equals`, yet `CompareTo` gives `0`; and with an engine whose
`equals` agrees with its order on identities but accepts the null pointer, a
wrapper of an identity is `Equals` to a wrapper without one, yet `CompareTo`
gives `1`. -/
theorem Kind.equals_compareTo_disagree_without_identity :
    Kind.Equals (kindsByAddress (fun _ => true)) ⟨0, none⟩ (some (Object.kind ⟨1, none⟩)) = false ∧
    Kind.CompareTo (kindsByAddress (fun _ => true)) ⟨0, none⟩ (some ⟨1, none⟩) = 0 ∧
    Kind.Equals (kindsAllEqual (fun _ => true)) ⟨0, some 3⟩ (some (Object.kind ⟨1, none⟩)) = true ∧
    Kind.CompareTo (kindsAllEqual (fun _ => true)) ⟨0, some 3⟩ (some ⟨1, none⟩) = 1 := by
  decide

/-- C4, amended: for two wrappers that are the same object or of which at least one
carries a native identity, `a.Equals(b)` holds exactly when `a.CompareTo(b) == 0`,
provided the engine's `equals` accepts exactly the identities that its order,
a strict one, places neither before nor after the receiver (and so accepts no
null pointer); and for every engine, two distinct wrappers neither of which
carries a native identity are not `Equals` while `CompareTo` gives `0`. -/
theorem Kind.equals_iff_compareTo_eq_zero (nk : NativeKind) (a b : Kind) :
    ((a.ref = b.ref → a = b) →
      (∀ p o, nk.equals p o = true ↔
        ∃ q, o = some q ∧ nk.lt p q = false ∧ nk.lt q p = false) →
      (∀ p, nk.lt p p = false) →
      (a.ref = b.ref ∨ a._nativePtr ≠ none ∨ b._nativePtr ≠ none) →
      (Kind.Equals nk a (some (Object.kind b)) = true ↔ Kind.CompareTo nk a (some b) = 0)) ∧
    (a.ref ≠ b.ref → a._nativePtr = none → b._nativePtr = none →
      Kind.Equals nk a (some (Object.kind b)) = false ∧ Kind.CompareTo nk a (some b) = 0) := by
  constructor
  · intro hobj hagree hirrefl hid
    by_cases href : a.ref = b.ref
    · have hab := hobj href
      subst hab
      simp [Kind.Equals, Kind.CompareTo, Object.ref]
    · have hid2 : a._nativePtr ≠ none ∨ b._nativePtr ≠ none := by
        rcases hid with h | h
        · exact absurd h href
        · exact h
      obtain ⟨ra, pa⟩ := a
      obtain ⟨rb, pb⟩ := b
      simp only [Kind.Equals, Kind.CompareTo, Object.ref, Object.asKind] at href hid2 ⊢
      rw [if_neg href]
      cases pa with
      | none =>
        cases pb with
        | none => simp at hid2
        | some q => simp
      | some p =>
        cases pb with
        | none =>
          have hn : nk.equals p none = false := by
            cases h : nk.equals p none with
            | false => rfl
            | true =>
              obtain ⟨q, hq, _⟩ := (hagree p none).1 h
              cases hq
          simp [hn]
        | some q =>
          by_cases hpq : p = q
          · subst hpq
            have : nk.equals p (some p) = true :=
              (hagree p (some p)).2 ⟨p, rfl, hirrefl p, hirrefl p⟩
            simp [this]
          · have hne : (some p : Option NativeKindPtr) ≠ some q :=
              fun h => hpq (Option.some.inj h)
            simp only [if_neg hne]
            constructor
            · intro h
              obtain ⟨q', hq', h1, h2⟩ := (hagree p (some q)).1 h
              cases hq'
              simp [h1, h2]
            · intro h
              apply (hagree p (some q)).2
              refine ⟨q, rfl, ?_, ?_⟩
              · cases h1 : nk.lt p q with
                | false => rfl
                | true => simp [h1] at h
              · cases h2 : nk.lt q p with
                | false => rfl
                | true =>
                  cases h1 : nk.lt p q with
                  | false => simp [h1, h2] at h
                  | true => simp [h1] at h
  · intro href ha hb
    obtain ⟨ra, pa⟩ := a
    obtain ⟨rb, pb⟩ := b
    simp only at ha hb
    subst ha
    subst hb
    simp only [Kind.Equals, Kind.CompareTo, Object.ref, Object.asKind] at href ⊢
    rw [if_neg href]
    simp

/-- C4, amended, on kinds compared by address: two distinct wrappers of the identity
at address `3`. -/
theorem Kind.equals_iff_compareTo_eq_zero_witness :
    (Kind.Equals (kindsByAddress (fun _ => true)) ⟨0, some 3⟩ (some (Object.kind ⟨1, some 3⟩)) = true ↔
      Kind.CompareTo (kindsByAddress (fun _ => true)) ⟨0, some 3⟩ (some ⟨1, some 3⟩) = 0) :=
  (Kind.equals_iff_compareTo_eq_zero (kindsByAddress (fun _ => true)) ⟨0, some 3⟩ ⟨1, some 3⟩).1
    (by decide) (kindsByAddress_laws _).1 (kindsByAddress_laws _).2.1 (by decide)

/-- C5, as the code has it: with an engine that gives equal identities equal hashes
but whose `equals` accepts the null pointer, the wrapper of the identity at
address `3` is `Equals` to a wrapper without native identity, and their hash
codes are `1` and `0`. -/
theorem Kind.equals_to_null_identity_breaks_hash :
    Kind.Equals (kindsAllEqual (fun _ => true)) ⟨0, some 3⟩ (some (Object.kind ⟨1, none⟩)) = true ∧
    Kind.GetHashCode (kindsAllEqual (fun _ => true)) ⟨0, some 3⟩ = 1 ∧
    Kind.GetHashCode (kindsAllEqual (fun _ => true)) ⟨1, none⟩ = 0 := by
  decide

/-- C5, amended: wrappers that are `Equals` have the same hash code, provided the
engine gives equal identities equal hashes and its `equals` accepts no null
pointer; for every engine, the hash code of a wrapper without native identity
is `0`, and otherwise it is the engine hash narrowed to a 32-bit signed integer. -/
theorem Kind.equals_imp_getHashCode_eq (nk : NativeKind) (a b : Kind) :
    ((a.ref = b.ref → a = b) →
      (∀ p q, nk.equals p (some q) = true → nk.hash p = nk.hash q) →
      (∀ p, nk.equals p none = false) →
      Kind.Equals nk a (some (Object.kind b)) = true →
      Kind.GetHashCode nk a = Kind.GetHashCode nk b) ∧
    (a._nativePtr = none → Kind.GetHashCode nk a = 0) ∧
    (∀ p, a._nativePtr = some p →
      -(2 : Int) ^ 31 ≤ Kind.GetHashCode nk a ∧ Kind.GetHashCode nk a < 2 ^ 31 ∧
      (Kind.GetHashCode nk a - nk.hash p) % 2 ^ 32 = 0) := by
  refine ⟨?_, ?_, ?_⟩
  · intro hobj hhash hnull heq
    by_cases href : a.ref = b.ref
    · rw [hobj href]
    · obtain ⟨ra, pa⟩ := a
      obtain ⟨rb, pb⟩ := b
      simp only [Kind.Equals, Object.ref, Object.asKind] at href heq
      rw [if_neg href] at heq
      cases pa with
      | none => simp at heq
      | some p =>
        cases pb with
        | none =>
          simp only at heq
          rw [hnull p] at heq
          cases heq
        | some q =>
          have hh := hhash p q heq
          simp [Kind.GetHashCode, hh]
  · intro h
    simp [Kind.GetHashCode, h]
  · intro p h
    simp only [Kind.GetHashCode, h]
    exact toInt32_spec (nk.hash p)

/-- C5, amended, on kinds compared by address: two distinct wrappers of the identity
at address `3`, whose engine hash `4294967298` narrows to `2`. -/
theorem Kind.equals_imp_getHashCode_eq_witness :
    Kind.Equals (kindsByAddress (fun _ => true)) ⟨0, some 3⟩ (some (Object.kind ⟨1, some 3⟩)) = true ∧
    Kind.GetHashCode (kindsByAddress (fun _ => true)) ⟨0, some 3⟩ = 2 ∧
    Kind.GetHashCode (kindsByAddress (fun _ => true)) ⟨1, some 3⟩ = 2 :=
  have h := (Kind.equals_imp_getHashCode_eq (kindsByAddress (fun _ => true)) ⟨0, some 3⟩
    ⟨1, some 3⟩).1 (by decide)
    (by
      intro p q hpq
      simp only [kindsByAddress, decide_eq_true_eq, Option.some.injEq] at hpq
      rw [hpq])
    (by
      intro p
      simp [kindsByAddress])
    (by decide)
  ⟨by decide, by decide, h ▸ by decide⟩

/-- C6, as the code has it: with kinds ordered by address and only address `0`
valid, the wrapper of the invalid identity at address `1` compares greater than
the wrapper of the valid one; with an engine whose `equals` accepts every
pointer, a valid wrapper is `Equals` to a wrapper without native identity, and
the wrapper of an invalid identity is `Equals` to a valid one. -/
theorem Kind.invalid_identity_sorts_by_engine_order :
    Kind.IsValid (kindsByAddress (fun p => decide (p = 0))) ⟨0, some 1⟩ = false ∧
    Kind.IsValid (kindsByAddress (fun p => decide (p = 0))) ⟨1, some 0⟩ = true ∧
    Kind.CompareTo (kindsByAddress (fun p => decide (p = 0))) ⟨0, some 1⟩ (some ⟨1, some 0⟩) = 1 ∧
    Kind.IsValid (kindsAllEqual (fun _ => true)) ⟨0, none⟩ = false ∧
    Kind.IsValid (kindsAllEqual (fun _ => true)) ⟨1, some 3⟩ = true ∧
    Kind.Equals (kindsAllEqual (fun _ => true)) ⟨1, some 3⟩ (some (Object.kind ⟨0, none⟩)) = true ∧
    Kind.IsValid (kindsAllEqual (fun p => decide (p = 0))) ⟨0, some 1⟩ = false ∧
    Kind.IsValid (kindsAllEqual (fun p => decide (p = 0))) ⟨1, some 0⟩ = true ∧
    Kind.Equals (kindsAllEqual (fun p => decide (p = 0))) ⟨0, some 1⟩
      (some (Object.kind ⟨1, some 0⟩)) = true := by
  decide

/-- C6, amended: for every engine, a wrapper without native identity has the empty
`Name`, compares less than every valid wrapper, every valid wrapper compares
greater than it, and it is not `Equals` to a valid wrapper; a valid wrapper is
not `Equals` to it provided the engine's `equals` accepts no null pointer. A
wrapper whose native identity is invalid compares less than every valid
wrapper, and every valid wrapper greater than it, provided the engine's order
places every invalid identity before every valid one and not after it; and
neither is `Equals` to the other provided the engine's `equals` accepts no
identity of a validity other than the receiver's. -/
theorem Kind.invalid_before_valid (nk : NativeKind) (a b : Kind) :
    (a._nativePtr = none → Kind.Name nk a = "") ∧
    (a._nativePtr = none → Kind.IsValid nk b = true →
      Kind.CompareTo nk a (some b) < 0 ∧ Kind.CompareTo nk b (some a) > 0) ∧
    (a._nativePtr = none → Kind.IsValid nk b = true → (a.ref = b.ref → a = b) →
      Kind.Equals nk a (some (Object.kind b)) = false) ∧
    (a._nativePtr = none → Kind.IsValid nk b = true → (a.ref = b.ref → a = b) →
      (∀ p, nk.equals p none = false) →
      Kind.Equals nk b (some (Object.kind a)) = false) ∧
    (a._nativePtr ≠ none → Kind.IsValid nk a = false → Kind.IsValid nk b = true →
      (∀ p q, nk.isValid p = false → nk.isValid q = true →
        nk.lt p q = true ∧ nk.lt q p = false) →
      Kind.CompareTo nk a (some b) < 0 ∧ Kind.CompareTo nk b (some a) > 0) ∧
    (a._nativePtr ≠ none → Kind.IsValid nk a = false → Kind.IsValid nk b = true →
      (a.ref = b.ref → a = b) →
      (∀ p q, nk.equals p (some q) = true → nk.isValid q = nk.isValid p) →
      Kind.Equals nk a (some (Object.kind b)) = false ∧
      Kind.Equals nk b (some (Object.kind a)) = false) := by
  have hrefs : (a.ref = b.ref → a = b) → Kind.IsValid nk a = false →
      Kind.IsValid nk b = true → a.ref ≠ b.ref ∧ b.ref ≠ a.ref := by
    intro hobj ha hb
    have href : a.ref ≠ b.ref := by
      intro h
      rw [hobj h, hb] at ha
      cases ha
    exact ⟨href, fun h => href h.symm⟩
  have hnull : a._nativePtr = none → Kind.IsValid nk a = false := by
    intro h
    simp [Kind.IsValid, h]
  refine ⟨?_, ?_, ?_, ?_, ?_, ?_⟩
  · intro h
    simp [Kind.Name, h]
  · intro ha hb
    obtain ⟨ra, pa⟩ := a
    obtain ⟨rb, pb⟩ := b
    simp only at ha
    subst ha
    cases pb with
    | none => simp [Kind.IsValid] at hb
    | some q => simp [Kind.CompareTo]
  · intro ha hb hobj
    obtain ⟨href, -⟩ := hrefs hobj (hnull ha) hb
    obtain ⟨ra, pa⟩ := a
    obtain ⟨rb, pb⟩ := b
    simp only at ha
    subst ha
    simp only [Kind.Equals, Object.ref, Object.asKind] at href ⊢
    rw [if_neg href]
  · intro ha hb hobj hn
    obtain ⟨-, href2⟩ := hrefs hobj (hnull ha) hb
    obtain ⟨ra, pa⟩ := a
    obtain ⟨rb, pb⟩ := b
    simp only at ha
    subst ha
    simp only [Kind.Equals, Object.ref, Object.asKind] at href2 ⊢
    rw [if_neg href2]
    cases pb with
    | none => rfl
    | some q => exact hn q
  · intro hsome ha hb hord
    obtain ⟨ra, pa⟩ := a
    obtain ⟨rb, pb⟩ := b
    simp only [Kind.IsValid] at ha hb
    simp only [Kind.CompareTo]
    cases pb with
    | none => simp at hb
    | some q =>
      simp only at hb
      cases pa with
      | none => simp at hsome
      | some p =>
        simp only at ha
        have hpq : p ≠ q := by
          rintro rfl
          rw [ha] at hb
          cases hb
        have h1 : (some p : Option NativeKindPtr) ≠ some q := fun h => hpq (Option.some.inj h)
        have h2 : (some q : Option NativeKindPtr) ≠ some p :=
          fun h => hpq (Option.some.inj h).symm
        obtain ⟨hlt, hgt⟩ := hord p q ha hb
        simp [h1, h2, hlt, hgt]
  · intro hsome ha hb hobj heq
    obtain ⟨href, href2⟩ := hrefs hobj ha hb
    obtain ⟨ra, pa⟩ := a
    obtain ⟨rb, pb⟩ := b
    simp only [Kind.IsValid] at ha hb
    simp only [Kind.Equals, Object.ref, Object.asKind] at href href2 ⊢
    rw [if_neg href, if_neg href2]
    cases pb with
    | none => simp at hb
    | some q =>
      simp only at hb
      cases pa with
      | none => simp at hsome
      | some p =>
        simp only at ha
        have e1 : nk.equals p (some q) = false := by
          cases h : nk.equals p (some q) with
          | false => rfl
          | true =>
            have hv := heq p q h
            rw [ha, hb] at hv
            cases hv
        have e2 : nk.equals q (some p) = false := by
          cases h : nk.equals q (some p) with
          | false => rfl
          | true =>
            have hv := heq q p h
            rw [ha, hb] at hv
            cases hv
        simp [e1, e2]

/-- C6, amended, on kinds ordered by address of which only address `0` is invalid:
the wrapper of the identity at address `0` and the wrapper of the one at `5`. -/
theorem Kind.invalid_before_valid_witness :
    Kind.IsValid (kindsByAddress (fun p => decide (0 < p))) ⟨0, some 0⟩ = false ∧
    Kind.IsValid (kindsByAddress (fun p => decide (0 < p))) ⟨1, some 5⟩ = true ∧
    Kind.CompareTo (kindsByAddress (fun p => decide (0 < p))) ⟨0, some 0⟩ (some ⟨1, some 5⟩) < 0 :=
  ⟨by decide, by decide,
    ((Kind.invalid_before_valid (kindsByAddress (fun p => decide (0 < p))) ⟨0, some 0⟩
      ⟨1, some 5⟩).2.2.2.2.1
      (by decide) (by decide) (by decide)
      (by
        intro p q hp hq
        simp only [kindsByAddress, decide_eq_false_iff_not, decide_eq_true_eq, not_lt] at hp hq ⊢
        exact ⟨Nat.lt_of_le_of_lt hp hq, Nat.le_of_lt (Nat.lt_of_le_of_lt hp hq)⟩)).1⟩

/-! ## Theorems: the kind cache -/

namespace KeyValueStore

variable {E : Type}

/-- What `WrapKind` does for a non-null native pointer: it returns a wrapper, which
is then the cache's entry for the identity; entries already in the cache stay;
a well-formed cache stays well-formed; the handle and the engine calls are
untouched. -/
theorem WrapKind_some_spec (s : KeyValueStore E) (p : NativeKindPtr) :
    ∃ k, (WrapKind s (some p)).2 = some k ∧
      cached (WrapKind s (some p)).1 p = some k ∧
      (∀ q k', cached s q = some k' → cached (WrapKind s (some p)).1 q = some k') ∧
      (CacheWF s → CacheWF (WrapKind s (some p)).1) ∧
      (WrapKind s (some p)).1._nativePtr = s._nativePtr ∧
      (WrapKind s (some p)).1.calls = s.calls := by
  obtain ⟨np, kc, al, cs⟩ := s
  cases kc with
  | none =>
    refine ⟨⟨al, some p⟩, ?_, ?_, ?_, ?_, ?_, ?_⟩ <;>
      simp [WrapKind, CreateKindWrapper, cached, CacheWF, cacheKeys, List.lookup]
    intro q k' h
    split at h
    · cases h
      rename_i hq
      simp at hq
      simp [hq]
    · cases h
  | some d =>
    cases hl : d.lookup p with
    | some k =>
      refine ⟨k, ?_, ?_, ?_, ?_, ?_, ?_⟩ <;>
        simp [WrapKind, cached, CacheWF, cacheKeys, hl]
    | none =>
      have hnot : ∀ x ∈ d, ¬ p = x.1 := by
        have := List.lookup_eq_none_iff.1 hl
        intro x hx
        simpa using this x hx
      refine ⟨⟨al, some p⟩, ?_, ?_, ?_, ?_, ?_, ?_⟩
      · simp [WrapKind, CreateKindWrapper, hl]
      · simp [WrapKind, CreateKindWrapper, cached, hl, List.lookup_append, List.lookup]
      · intro q k' h
        simp only [cached] at h
        simp [WrapKind, CreateKindWrapper, cached, hl, List.lookup_append, h]
      · rintro ⟨hnd, hkey⟩
        simp only [cacheKeys, cached] at hnd hkey
        constructor
        · simp only [WrapKind, CreateKindWrapper, hl, cacheKeys, List.map_append, List.map_cons,
            List.map_nil]
          rw [List.nodup_append]
          refine ⟨hnd, by simp, ?_⟩
          intro a ha hb
          simp only [List.mem_singleton] at hb
          subst hb
          obtain ⟨x, hx, rfl⟩ := List.mem_map.1 ha
          exact hnot x hx rfl
        · intro q k' h
          simp only [WrapKind, CreateKindWrapper, hl, cached, List.lookup_append] at h
          cases hq : d.lookup q with
          | some k2 =>
            rw [hq] at h
            simp only [Option.or_some] at h
            have e : k2 = k' := Option.some.inj h
            rw [← e]
            exact hkey q k2 hq
          | none =>
            rw [hq] at h
            simp only [Option.none_or, List.lookup] at h
            split at h
            · cases h
              rename_i hqp
              simp at hqp
              simp [hqp]
            · cases h
      · simp [WrapKind, CreateKindWrapper, hl]
      · simp [WrapKind, CreateKindWrapper, hl]

/-- The loop of `GetKinds` keeps the entries of the cache, keeps a well-formed cache
well-formed, returns only wrappers that are cache entries, and touches neither
the handle nor the engine. -/
theorem wrapEach_spec (ps : List NativeKindPtr) (s : KeyValueStore E) :
    CacheKept s (wrapEach s ps).1 ∧
    (CacheWF s → CacheWF (wrapEach s ps).1 ∧
      AllCached (wrapEach s ps).1 ((wrapEach s ps).2.filterMap id)) ∧
    (wrapEach s ps).1._nativePtr = s._nativePtr ∧
    (wrapEach s ps).1.calls = s.calls := by
  induction ps generalizing s with
  | nil =>
    refine ⟨fun _ _ h => h, fun h => ⟨h, ?_⟩, rfl, rfl⟩
    intro w hw
    simp [wrapEach] at hw
  | cons p rest ih =>
    obtain ⟨k, hk, hc, hkept, hwf, hnp, hcalls⟩ := WrapKind_some_spec s p
    obtain ⟨ikept, iwf, inp, icalls⟩ := ih (WrapKind s (some p)).1
    refine ⟨?_, ?_, ?_, ?_⟩
    · intro q k' h
      exact ikept q k' (hkept q k' h)
    · intro h
      obtain ⟨h1, h2⟩ := iwf (hwf h)
      refine ⟨h1, ?_⟩
      intro w hw
      simp only [wrapEach, hk, List.filterMap_cons, id, List.mem_cons] at hw
      rcases hw with rfl | hw
      · exact ⟨p, (hwf h).2 p w hc, ikept p w hc⟩
      · exact h2 w hw
    · simp only [wrapEach]
      rw [inp, hnp]
    · simp only [wrapEach]
      rw [icalls, hcalls]

/-- A call on the engine leaves the cache entries as they are. -/
theorem cached_afterCall (s : KeyValueStore E) (e : E) (c : NativeCall) (p : NativeKindPtr) :
    cached (afterCall s e c) p = cached s p := rfl

/-- A call on the engine leaves the cache keys as they are. -/
theorem cacheKeys_afterCall (s : KeyValueStore E) (e : E) (c : NativeCall) :
    cacheKeys (afterCall s e c) = cacheKeys s := rfl

/-- A call on the engine keeps a well-formed cache well-formed. -/
theorem CacheWF_afterCall (s : KeyValueStore E) (e : E) (c : NativeCall) :
    CacheWF (afterCall s e c) ↔ CacheWF s := Iff.rfl

end KeyValueStore

/-- A value that is no wrapper hands no wrapper to the caller. -/
theorem Op.wrappers_map_void {α : Type} (r : Except Thrown α) :
    Op.wrappers (Except.map (fun _ => Value.void) r) = [] := by
  cases r <;> rfl

/-- A boolean hands no wrapper to the caller. -/
theorem Op.wrappers_map_bool (r : Except Thrown Bool) :
    Op.wrappers (Except.map Value.bool r) = [] := by
  cases r <;> rfl

/-- A buffer hands no wrapper to the caller. -/
theorem Op.wrappers_map_bytes (r : Except Thrown (Option NativeBytes)) :
    Op.wrappers (Except.map Value.bytes r) = [] := by
  cases r <;> rfl

/-- Each public member function keeps the entries of the cache, keeps a well-formed
cache well-formed, and hands out only wrappers that are cache entries. -/
theorem Op.run_cache {E : Type} (n : Native E) (s : KeyValueStore E) (op : Op) :
    KeyValueStore.CacheKept s (Op.run n s op).1 ∧
    (KeyValueStore.CacheWF s → KeyValueStore.CacheWF (Op.run n s op).1 ∧
      KeyValueStore.AllCached (Op.run n s op).1 (Op.wrappers (Op.run n s op).2)) := by
  have triv : ∀ t : KeyValueStore E, KeyValueStore.AllCached t [] := by
    intro t w hw
    cases hw
  have same : ∀ (t : KeyValueStore E) (r : Except Thrown Value), t._kindCache = s._kindCache →
      Op.wrappers r = [] →
      KeyValueStore.CacheKept s t ∧
      (KeyValueStore.CacheWF s → KeyValueStore.CacheWF t ∧ KeyValueStore.AllCached t (Op.wrappers r)) := by
    intro t r ht hr
    refine ⟨?_, ?_⟩
    · intro p k h
      simpa [KeyValueStore.cached, ht] using h
    · intro h
      rw [hr]
      refine ⟨?_, triv t⟩
      simpa [KeyValueStore.CacheWF, KeyValueStore.cached, KeyValueStore.cacheKeys, ht] using h
  have one : ∀ (e : E) (c : NativeCall) (p : NativeKindPtr),
      KeyValueStore.CacheKept s (KeyValueStore.WrapKind (KeyValueStore.afterCall s e c) (some p)).1 ∧
      (KeyValueStore.CacheWF s →
        KeyValueStore.CacheWF (KeyValueStore.WrapKind (KeyValueStore.afterCall s e c) (some p)).1 ∧
        KeyValueStore.AllCached (KeyValueStore.WrapKind (KeyValueStore.afterCall s e c) (some p)).1
          (Op.wrappers (Except.map Value.kind
            (.ok (KeyValueStore.WrapKind (KeyValueStore.afterCall s e c) (some p)).2)))) := by
    intro e c p
    obtain ⟨k, hk, hc, hkept, hwf, -, -⟩ :=
      KeyValueStore.WrapKind_some_spec (KeyValueStore.afterCall s e c) p
    refine ⟨fun q k' h => hkept q k' h, ?_⟩
    intro h
    refine ⟨hwf h, ?_⟩
    intro w hw
    rw [hk] at hw
    simp only [Except.map, Op.wrappers, List.mem_singleton] at hw
    subst hw
    exact ⟨p, (hwf h).2 p w hc, hc⟩
  cases op with
  | GetDefaultKind =>
    simp only [Op.run, Op.pack, KeyValueStore.GetDefaultKind, KeyValueStore.ThrowIfDisposed]
    cases s._nativePtr with
    | none => exact same _ _ rfl rfl
    | some e =>
      simp only []
      cases (n.store.getDefaultKind e).2 with
      | returned p => exact one _ _ p
      | rocksException c w => exact same _ _ rfl rfl
      | otherException => exact same _ _ rfl rfl
  | GetOrCreateKind kindName =>
    simp only [Op.run, Op.pack, KeyValueStore.GetOrCreateKind, KeyValueStore.ThrowIfDisposed]
    cases s._nativePtr with
    | none => exact same _ _ rfl rfl
    | some e =>
      cases kindName with
      | none => exact same _ _ rfl rfl
      | some name =>
        simp only []
        cases (n.store.getOrCreateKind e (n.marshal_as name)).2 with
        | returned p => exact one _ _ p
        | rocksException c w => exact same _ _ rfl rfl
        | otherException => exact same _ _ rfl rfl
  | GetKinds =>
    simp only [Op.run, Op.pack, KeyValueStore.GetKinds, KeyValueStore.ThrowIfDisposed]
    cases s._nativePtr with
    | none => exact same _ _ rfl rfl
    | some e =>
      simp only []
      cases (n.store.getKinds e).2 with
      | returned ps =>
        obtain ⟨hkept, hwf, -, -⟩ :=
          KeyValueStore.wrapEach_spec ps (KeyValueStore.afterCall s (n.store.getKinds e).1 .getKinds)
        exact ⟨fun q k' h => hkept q k' h, fun h => hwf h⟩
      | rocksException c w => exact same _ _ rfl rfl
      | otherException => exact same _ _ rfl rfl
  | Compact kind =>
    apply same
    · simp only [Op.run, Op.pack, KeyValueStore.Compact, KeyValueStore.ThrowIfDisposed]
      repeat' split
      all_goals rfl
    · exact Op.wrappers_map_void _
  | CompactAll =>
    apply same
    · simp only [Op.run, Op.pack, KeyValueStore.CompactAll, KeyValueStore.ThrowIfDisposed]
      repeat' split
      all_goals rfl
    · exact Op.wrappers_map_void _
  | UpdateIfPresent kind key value =>
    apply same
    · simp only [Op.run, Op.pack, KeyValueStore.UpdateIfPresent, KeyValueStore.ThrowIfDisposed]
      repeat' split
      all_goals rfl
    · exact Op.wrappers_map_bytes _
  | PutIfAbsent kind key value =>
    apply same
    · simp only [Op.run, Op.pack, KeyValueStore.PutIfAbsent, KeyValueStore.ThrowIfDisposed]
      repeat' split
      all_goals rfl
    · exact Op.wrappers_map_bool _
  | Put kind key value =>
    apply same
    · simp only [Op.run, Op.pack, KeyValueStore.Put, KeyValueStore.ThrowIfDisposed]
      repeat' split
      all_goals rfl
    · exact Op.wrappers_map_void _
  | Get kind key =>
    apply same
    · simp only [Op.run, Op.pack, KeyValueStore.Get, KeyValueStore.ThrowIfDisposed]
      repeat' split
      all_goals rfl
    · exact Op.wrappers_map_bytes _
  | SingleRemoveIfPresent kind key =>
    apply same
    · simp only [Op.run, Op.pack, KeyValueStore.SingleRemoveIfPresent,
        KeyValueStore.ThrowIfDisposed]
      repeat' split
      all_goals rfl
    · exact Op.wrappers_map_bytes _
  | RemoveIfPresent kind key =>
    apply same
    · simp only [Op.run, Op.pack, KeyValueStore.RemoveIfPresent, KeyValueStore.ThrowIfDisposed]
      repeat' split
      all_goals rfl
    · exact Op.wrappers_map_bytes _
  | SingleRemove kind key =>
    apply same
    · simp only [Op.run, Op.pack, KeyValueStore.SingleRemove, KeyValueStore.ThrowIfDisposed]
      repeat' split
      all_goals rfl
    · exact Op.wrappers_map_void _
  | Remove kind key =>
    apply same
    · simp only [Op.run, Op.pack, KeyValueStore.Remove, KeyValueStore.ThrowIfDisposed]
      repeat' split
      all_goals rfl
    · exact Op.wrappers_map_void _
  | FindMinKey kind =>
    apply same
    · simp only [Op.run, Op.pack, KeyValueStore.FindMinKey, KeyValueStore.ThrowIfDisposed]
      repeat' split
      all_goals rfl
    · exact Op.wrappers_map_bytes _
  | FindMaxKey kind =>
    apply same
    · simp only [Op.run, Op.pack, KeyValueStore.FindMaxKey, KeyValueStore.ThrowIfDisposed]
      repeat' split
      all_goals rfl
    · exact Op.wrappers_map_bytes _

/-- A sequence of calls keeps the entries of the cache, keeps a well-formed cache
well-formed, and every wrapper handed out along the way is an entry of the
cache at the end. -/
theorem Op.runAll_cache {E : Type} (n : Native E) (ops : List Op) (s : KeyValueStore E) :
    KeyValueStore.CacheKept s (Op.runAll n s ops).1 ∧
    (KeyValueStore.CacheWF s → KeyValueStore.CacheWF (Op.runAll n s ops).1 ∧
      ∀ x ∈ (Op.runAll n s ops).2,
        KeyValueStore.AllCached (Op.runAll n s ops).1 (Op.wrappers x)) := by
  induction ops generalizing s with
  | nil =>
    refine ⟨fun _ _ h => h, fun h => ⟨h, ?_⟩⟩
    intro x hx
    cases hx
  | cons op rest ih =>
    obtain ⟨hkept, hstep⟩ := Op.run_cache n s op
    obtain ⟨ikept, irest⟩ := ih (Op.run n s op).1
    refine ⟨fun q k h => ikept q k (hkept q k h), ?_⟩
    intro h
    obtain ⟨hwf1, hall1⟩ := hstep h
    obtain ⟨hwf2, hall2⟩ := irest hwf1
    refine ⟨hwf2, ?_⟩
    intro x hx
    simp only [Op.runAll, List.mem_cons] at hx
    rcases hx with rfl | hx
    · intro w hw
      obtain ⟨p, hp, hc⟩ := hall1 w hw
      exact ⟨p, hp, ikept p w hc⟩
    · exact hall2 x hx

/-- The store the constructor returns has a well-formed kind cache, an open handle
and an engine that has not been destroyed. -/
theorem KeyValueStore.ctor_wf {E : Type} (n : Native E) (path : Option String)
    (s : KeyValueStore E) (h : KeyValueStore.ctor n path = .ok s) :
    KeyValueStore.CacheWF s ∧ KeyValueStore.HandleWF s := by
  unfold KeyValueStore.ctor at h
  cases path with
  | none => cases h
  | some path =>
    simp only at h
    split at h
    · cases h
      refine ⟨⟨List.nodup_nil, ?_⟩, ?_⟩
      · intro p k hk
        cases hk
      · simp [KeyValueStore.HandleWF]
    · cases h
    · cases h

/-- C1: over any sequence of calls on a store that is not closed in between, two
wrappers handed out for the same native identity are the same object; the cache
has at most one entry for each identity, every wrapper handed out is the entry
for its identity, and every entry the cache had before is still there. -/
theorem Op.kindCache_identity {E : Type} (n : Native E) (s : KeyValueStore E)
    (hwf : KeyValueStore.CacheWF s) (ops : List Op) :
    (∀ x ∈ (Op.runAll n s ops).2, ∀ y ∈ (Op.runAll n s ops).2,
      ∀ w1 ∈ Op.wrappers x, ∀ w2 ∈ Op.wrappers y,
        w1._nativePtr = w2._nativePtr → w1 = w2) ∧
    (KeyValueStore.cacheKeys (Op.runAll n s ops).1).Nodup ∧
    (∀ x ∈ (Op.runAll n s ops).2,
      KeyValueStore.AllCached (Op.runAll n s ops).1 (Op.wrappers x)) ∧
    KeyValueStore.CacheKept s (Op.runAll n s ops).1 := by
  obtain ⟨hkept, hrest⟩ := Op.runAll_cache n ops s
  obtain ⟨hwf2, hall⟩ := hrest hwf
  refine ⟨?_, hwf2.1, hall, hkept⟩
  intro x hx y hy w1 h1 w2 h2 heq
  obtain ⟨p, hp, hc1⟩ := hall x hx w1 h1
  obtain ⟨q, hq, hc2⟩ := hall y hy w2 h2
  rw [hp, hq] at heq
  cases heq
  rw [hc1] at hc2
  exact Option.some.inj hc2

/-- C1 on the in-memory engine: a kind created, the default kind, the list of
kinds and the created kind again, on a store just opened. -/
theorem Op.kindCache_identity_witness :
    KeyValueStore.CacheWF openedMap ∧
    (KeyValueStore.cacheKeys (Op.runAll mapNative openedMap
      [Op.GetOrCreateKind (some "a"), Op.GetDefaultKind, Op.GetKinds,
        Op.GetOrCreateKind (some "a")]).1).Nodup ∧
    (Op.runAll mapNative openedMap
      [Op.GetOrCreateKind (some "a"), Op.GetDefaultKind, Op.GetKinds,
        Op.GetOrCreateKind (some "a")]).2 =
      [.ok (Value.kind (some ⟨0, some 1⟩)), .ok (Value.kind (some ⟨1, some 0⟩)),
        .ok (Value.kinds [some ⟨1, some 0⟩, some ⟨0, some 1⟩]),
        .ok (Value.kind (some ⟨0, some 1⟩))] :=
  have hwf : KeyValueStore.CacheWF openedMap :=
    ⟨List.nodup_nil, fun _ _ h => Option.noConfusion h⟩
  ⟨hwf, (Op.kindCache_identity mapNative openedMap hwf _).2.1, rfl⟩

/-! ## Theorems: the lifetime of the store -/

namespace KeyValueStore

variable {E : Type}

/-- After `Close` the store has no native handle. -/
theorem Close_nativePtr (s : KeyValueStore E) : (Close s)._nativePtr = none := by
  unfold Close Dispose Finalize
  split
  · rfl
  · assumption

/-- On a store without native handle `Close` does nothing. -/
theorem Close_of_closed (s : KeyValueStore E) (h : s._nativePtr = none) : Close s = s := by
  unfold Close Dispose Finalize
  split
  · rename_i e he
    rw [h] at he
    cases he
  · rfl

/-- On a store without native handle every member function throws
`ObjectDisposedException` and leaves the store as it is. -/
theorem run_of_closed (n : Native E) (s : KeyValueStore E) (h : s._nativePtr = none) (op : Op) :
    Op.run n s op = (s, .error (.ObjectDisposedException "KeyValueStore")) := by
  cases op <;>
    simp [Op.run, Op.pack, GetDefaultKind, GetOrCreateKind, GetKinds, Compact, CompactAll,
      UpdateIfPresent, PutIfAbsent, Put, Get, SingleRemoveIfPresent, RemoveIfPresent,
      SingleRemove, Remove, FindMinKey, FindMaxKey, ThrowIfDisposed, h, Except.map]

end KeyValueStore

/-- C2: after `Close`, every member function, whatever its arguments, throws
`ObjectDisposedException`, leaves the store as `Close` left it, and so makes no
call on the engine. -/
theorem Op.run_after_Close {E : Type} (n : Native E) (s : KeyValueStore E) (op : Op) :
    Op.run n (KeyValueStore.Close s) op =
      (KeyValueStore.Close s, .error (.ObjectDisposedException "KeyValueStore")) ∧
    (Op.run n (KeyValueStore.Close s) op).1.calls = (KeyValueStore.Close s).calls := by
  have h := KeyValueStore.run_of_closed n (KeyValueStore.Close s)
    (KeyValueStore.Close_nativePtr s) op
  exact ⟨h, by rw [h]⟩

/-- C3: `Close` after `Close` changes nothing; after `Close` the handle is absent,
the kind cache is cleared and `IsOpen` is false; and however many times `Close`
is called, the engine is destroyed exactly once. -/
theorem KeyValueStore.Close_idempotent {E : Type} (n : Native E) (s : KeyValueStore E)
    (hwf : KeyValueStore.HandleWF s) (k : Nat) :
    KeyValueStore.Close (KeyValueStore.Close s) = KeyValueStore.Close s ∧
    (KeyValueStore.Close s)._nativePtr = none ∧
    (KeyValueStore.Close s)._kindCache = none ∧
    KeyValueStore.IsOpen n (KeyValueStore.Close s) = false ∧
    KeyValueStore.Close^[k + 1] s = KeyValueStore.Close s ∧
    (KeyValueStore.Close^[k + 1] s).calls.count NativeCall.destroy = 1 := by
  have hnp := KeyValueStore.Close_nativePtr s
  have hfix : KeyValueStore.Close (KeyValueStore.Close s) = KeyValueStore.Close s :=
    KeyValueStore.Close_of_closed _ hnp
  have hiter : KeyValueStore.Close^[k + 1] s = KeyValueStore.Close s := by
    rw [Function.iterate_succ_apply]
    exact Function.iterate_fixed hfix k
  have hstate : (KeyValueStore.Close s)._kindCache = none ∧
      (KeyValueStore.Close s).calls.count NativeCall.destroy = 1 := by
    obtain ⟨np, kc, al, cs⟩ := s
    cases np with
    | none =>
      simpa [KeyValueStore.Close, KeyValueStore.Dispose, KeyValueStore.Finalize,
        KeyValueStore.HandleWF] using hwf
    | some e =>
      simp only [KeyValueStore.HandleWF] at hwf
      constructor
      · simp only [KeyValueStore.Close, KeyValueStore.Dispose, KeyValueStore.Finalize]
        cases kc <;> rfl
      · simp [KeyValueStore.Close, KeyValueStore.Dispose, KeyValueStore.Finalize, hwf]
  refine ⟨hfix, hnp, hstate.1, ?_, hiter, ?_⟩
  · simp [KeyValueStore.IsOpen, hnp]
  · rw [hiter]
    exact hstate.2

/-- C3 on the in-memory engine: three calls of `Close` on a store just opened. -/
theorem KeyValueStore.Close_idempotent_witness :
    KeyValueStore.HandleWF openedMap ∧
    (KeyValueStore.Close^[3] openedMap).calls = [NativeCall.create "db", NativeCall.destroy] ∧
    (KeyValueStore.Close^[3] openedMap).calls.count NativeCall.destroy = 1 :=
  have hwf : KeyValueStore.HandleWF openedMap := by
    simp [KeyValueStore.HandleWF, openedMap]
  ⟨hwf, rfl, (KeyValueStore.Close_idempotent mapNative openedMap hwf 2).2.2.2.2.2⟩

/-! ## Theorems: argument validation -/

/-- The view built from a span has the bytes of the span. -/
theorem toStringView_eq (span : List Byte) : toStringView span = span := by
  unfold toStringView
  split
  · rfl
  · rename_i h
    simp only [gt_iff_lt, List.length_pos, ne_eq, not_not] at h
    exact h.symm

/-- What the handlers hand on when the native call returned. -/
theorem translate_returned {α : Type} (f : α → Value) (message : String) (r : NativeOutcome α)
    (v : Value) (h : r.map f = .returned v) : Except.map f (translate message r) = .ok v := by
  cases r with
  | returned a =>
    simp only [NativeOutcome.map, NativeOutcome.returned.injEq] at h
    rw [← h]
    rfl
  | rocksException code what => cases h
  | otherException => cases h

/-- What the handlers hand on when the native call threw a `RocksException`. -/
theorem translate_rocksException {α : Type} (f : α → Value) (message : String)
    (r : NativeOutcome α) (code : Int) (what : String)
    (h : r.map f = .rocksException code what) :
    Except.map f (translate message r) = .error (.RocksDbException code what) := by
  cases r with
  | returned a => cases h
  | rocksException c w =>
    simp only [NativeOutcome.map, NativeOutcome.rocksException.injEq] at h
    rw [← h.1, ← h.2]
    rfl
  | otherException => cases h

/-- What the handlers hand on of a returned buffer. -/
theorem translate_bytes_returned (message : String) (r : NativeOutcome bytes) (v : Value)
    (h : r.map (fun b => Value.bytes (wrapBytes b)) = .returned v) :
    Except.map Value.bytes (Except.map wrapBytes (translate message r)) = .ok v := by
  cases r with
  | returned a =>
    simp only [NativeOutcome.map, NativeOutcome.returned.injEq] at h
    rw [← h]
    rfl
  | rocksException code what => cases h
  | otherException => cases h

/-- What the handlers hand on when a native call for a buffer threw a
`RocksException`. -/
theorem translate_bytes_rocksException (message : String) (r : NativeOutcome bytes)
    (code : Int) (what : String)
    (h : r.map (fun b => Value.bytes (wrapBytes b)) = .rocksException code what) :
    Except.map Value.bytes (Except.map wrapBytes (translate message r)) =
      .error (.RocksDbException code what) := by
  cases r with
  | returned a => cases h
  | rocksException c w =>
    simp only [NativeOutcome.map, NativeOutcome.rocksException.injEq] at h
    rw [← h.1, ← h.2]
    rfl
  | otherException => cases h

/-- C7, as the code has it: on a store just opened over the in-memory engine,
`GetOrCreateKind("")` calls the engine with the empty name and returns the
wrapper of the kind the engine created. -/
theorem KeyValueStore.GetOrCreateKind_empty_name_reaches_engine :
    (KeyValueStore.GetOrCreateKind mapNative openedMap (some "")).2 =
      .ok (some ⟨0, some 1⟩) ∧
    (KeyValueStore.GetOrCreateKind mapNative openedMap (some "")).1.calls =
      [NativeCall.create "db", NativeCall.getOrCreateKind ""] :=
  ⟨rfl, rfl⟩

/-- C7, amended: on an open store `GetOrCreateKind` throws `ArgumentNullException`
for a null name and leaves the store as it is; for every other name, the empty
one included, it calls the engine's `getOrCreateKind` once with the marshalled
name, and when the engine returns an identity it returns the wrapper the cache
holds for that identity. -/
theorem KeyValueStore.GetOrCreateKind_spec {E : Type} (n : Native E) (s : KeyValueStore E)
    (e : E) (hopen : s._nativePtr = some e) (hwf : KeyValueStore.CacheWF s) (name : String) :
    KeyValueStore.GetOrCreateKind n s none = (s, .error (.ArgumentNullException "kindName")) ∧
    (KeyValueStore.GetOrCreateKind n s (some name)).1.calls =
      s.calls ++ [NativeCall.getOrCreateKind (n.marshal_as name)] ∧
    (∀ p, (n.store.getOrCreateKind e (n.marshal_as name)).2 = .returned p →
      ∃ w, (KeyValueStore.GetOrCreateKind n s (some name)).2 = .ok (some w) ∧
        w._nativePtr = some p ∧
        KeyValueStore.cached (KeyValueStore.GetOrCreateKind n s (some name)).1 p = some w ∧
        (KeyValueStore.GetOrCreateKind n s (some name)).1._nativePtr =
          some (n.store.getOrCreateKind e (n.marshal_as name)).1) := by
  refine ⟨?_, ?_, ?_⟩
  · simp [KeyValueStore.GetOrCreateKind, KeyValueStore.ThrowIfDisposed, hopen]
  · simp only [KeyValueStore.GetOrCreateKind, KeyValueStore.ThrowIfDisposed, hopen]
    cases hr : (n.store.getOrCreateKind e (n.marshal_as name)).2 with
    | returned p =>
      obtain ⟨k, -, -, -, -, -, hcalls⟩ := KeyValueStore.WrapKind_some_spec
        (KeyValueStore.afterCall s (n.store.getOrCreateKind e (n.marshal_as name)).1
          (NativeCall.getOrCreateKind (n.marshal_as name))) p
      simp only [uncaught]
      rw [hcalls]
      rfl
    | rocksException c w => rfl
    | otherException => rfl
  · intro p hr
    simp only [KeyValueStore.GetOrCreateKind, KeyValueStore.ThrowIfDisposed, hopen, hr, uncaught]
    obtain ⟨k, hk, hc, -, hwf2, hnp, -⟩ := KeyValueStore.WrapKind_some_spec
      (KeyValueStore.afterCall s (n.store.getOrCreateKind e (n.marshal_as name)).1
        (NativeCall.getOrCreateKind (n.marshal_as name))) p
    refine ⟨k, by rw [hk], ?_, hc, ?_⟩
    · exact (hwf2 ((KeyValueStore.CacheWF_afterCall _ _ _).2 hwf)).2 p k hc
    · rw [hnp]
      rfl

/-- C7, amended, on the in-memory engine: `GetOrCreateKind("")` on a store just
opened. -/
theorem KeyValueStore.GetOrCreateKind_spec_witness :
    KeyValueStore.CacheWF openedMap ∧
    (KeyValueStore.GetOrCreateKind mapNative openedMap (some "")).1.calls =
      openedMap.calls ++ [NativeCall.getOrCreateKind ""] :=
  have hwf : KeyValueStore.CacheWF openedMap :=
    ⟨List.nodup_nil, fun _ _ h => Option.noConfusion h⟩
  ⟨hwf, (KeyValueStore.GetOrCreateKind_spec mapNative openedMap _ rfl hwf "").2.1⟩

/-- C8, as the code has it: on a store just opened over the in-memory engine, `Put`
with a wrapper of the invalid identity at address `200` calls the engine and
returns. -/
theorem KeyValueStore.Put_invalid_kind_reaches_engine :
    Kind.IsValid mapNative.kind ⟨7, some 200⟩ = false ∧
    (KeyValueStore.Put mapNative openedMap (some ⟨7, some 200⟩) [1] [2]).2 = .ok () ∧
    (KeyValueStore.Put mapNative openedMap (some ⟨7, some 200⟩) [1] [2]).1.calls =
      [NativeCall.create "db", NativeCall.put 200 [1] [2]] :=
  ⟨by decide, rfl, rfl⟩

/-- C8, amended: on an open store every kind-qualified operation other than
`Compact` throws `ArgumentNullException` for a null kind, whatever the key and
the value, and leaves the store, its engine calls included, as it is; a non-null
kind is not checked for validity, and when it carries a native identity the
engine operation of the same name is called once, with that identity and the
key and value of the caller: the store changes in nothing but the state of the
engine and the one call added, what the engine returns is handed on, and a
`RocksException` is thrown on as `RocksDbException`. -/
theorem Op.run_kind_argument {E : Type} (n : Native E) (s : KeyValueStore E) (e : E)
    (hopen : s._nativePtr = some e) (op : Op) :
    (op.kindArg = some none →
      Op.run n s op = (s, .error (.ArgumentNullException "kind"))) ∧
    (∀ k p, op.kindArg = some (some k) → k._nativePtr = some p →
      ∃ call after outcome, op.engineCall n e p = some (call, after, outcome) ∧
        (Op.run n s op).1 = { s with _nativePtr := some after, calls := s.calls ++ [call] } ∧
        (∀ v, outcome = .returned v → (Op.run n s op).2 = .ok v) ∧
        (∀ code what, outcome = .rocksException code what →
          (Op.run n s op).2 = .error (.RocksDbException code what))) := by
  constructor
  · intro h
    cases op <;> first
      | (simp only [Op.kindArg, Option.some.injEq] at h
         subst h
         simp [Op.run, Op.pack, KeyValueStore.UpdateIfPresent, KeyValueStore.PutIfAbsent,
           KeyValueStore.Put, KeyValueStore.Get, KeyValueStore.SingleRemoveIfPresent,
           KeyValueStore.RemoveIfPresent, KeyValueStore.SingleRemove, KeyValueStore.Remove,
           KeyValueStore.FindMinKey, KeyValueStore.FindMaxKey, KeyValueStore.ThrowIfDisposed,
           hopen, Except.map])
      | simp [Op.kindArg] at h
  · intro k p h hp
    cases op <;> first
      | (simp only [Op.kindArg, Option.some.injEq] at h
         subst h
         simp only [Op.run, Op.pack, KeyValueStore.UpdateIfPresent, KeyValueStore.PutIfAbsent,
           KeyValueStore.Put, KeyValueStore.Get, KeyValueStore.SingleRemoveIfPresent,
           KeyValueStore.RemoveIfPresent, KeyValueStore.SingleRemove, KeyValueStore.Remove,
           KeyValueStore.FindMinKey, KeyValueStore.FindMaxKey, KeyValueStore.ThrowIfDisposed,
           hopen, hp, KeyValueStore.afterCall, toStringView_eq, Op.engineCall]
         refine ⟨_, _, _, rfl, rfl, ?_, ?_⟩
         · intro v hv
           first
             | exact translate_returned _ _ _ v hv
             | exact translate_bytes_returned _ _ v hv
         · intro code what hv
           first
             | exact translate_rocksException _ _ _ code what hv
             | exact translate_bytes_rocksException _ _ code what hv)
      | simp [Op.kindArg] at h

/-- C8, amended, on the in-memory engine: `Put` with a null kind on a store just
opened. -/
theorem Op.run_kind_argument_witness :
    Op.run mapNative openedMap (Op.Put none [1] [2]) =
      (openedMap, .error (.ArgumentNullException "kind")) :=
  (Op.run_kind_argument mapNative openedMap _ rfl (Op.Put none [1] [2])).1 rfl

/-- C9, as the code has it: on a store just opened over the in-memory engine,
`Compact` with a null kind throws `ArgumentNullException`. -/
theorem KeyValueStore.Compact_null_kind_throws :
    KeyValueStore.Compact mapNative openedMap none =
      (openedMap, .error (.ArgumentNullException "kind")) :=
  rfl

/-- C9, amended: on an open store `Compact` with a wrapper whose `IsValid` is false
returns without an error and leaves the store, its engine calls included, as it
is; with a null kind it throws `ArgumentNullException`, the store again left as
it is. -/
theorem KeyValueStore.Compact_invalid_kind {E : Type} (n : Native E) (s : KeyValueStore E)
    (e : E) (hopen : s._nativePtr = some e) (kind : Kind)
    (hinvalid : Kind.IsValid n.kind kind = false) :
    KeyValueStore.Compact n s (some kind) = (s, .ok ()) ∧
    KeyValueStore.Compact n s none = (s, .error (.ArgumentNullException "kind")) := by
  constructor
  · simp only [KeyValueStore.Compact, KeyValueStore.ThrowIfDisposed, hopen]
    simp only [Kind.IsValid] at hinvalid
    cases hk : kind._nativePtr with
    | none => rfl
    | some p =>
      rw [hk] at hinvalid
      simp only at hinvalid
      simp [hinvalid]
  · simp [KeyValueStore.Compact, KeyValueStore.ThrowIfDisposed, hopen]

/-- C9, amended, on the in-memory engine: `Compact` with a wrapper of the invalid
identity at address `200` on a store just opened. -/
theorem KeyValueStore.Compact_invalid_kind_witness :
    Kind.IsValid mapNative.kind ⟨7, some 200⟩ = false ∧
    KeyValueStore.Compact mapNative openedMap (some ⟨7, some 200⟩) = (openedMap, .ok ()) :=
  ⟨by decide,
    (KeyValueStore.Compact_invalid_kind mapNative openedMap _ rfl ⟨7, some 200⟩ (by decide)).1⟩

/-! ## Theorems: translation of native failures -/

/-- C10, at the failing input: on an engine whose calls throw `RocksException(5,
"IO error")`, `GetOrCreateKind`, `GetDefaultKind` and `GetKinds` let the native
exception leave the facade as it is, where `Compact` and `Get` on the same
engine throw `RocksDbException(5, "IO error")`. -/
theorem KeyValueStore.kind_lookups_leave_native_failure_untranslated :
    (KeyValueStore.GetOrCreateKind (failingNative 5 "IO error") openedFailing (some "x")).2 =
      .error (.nativeRocksException 5 "IO error") ∧
    (KeyValueStore.GetDefaultKind (failingNative 5 "IO error") openedFailing).2 =
      .error (.nativeRocksException 5 "IO error") ∧
    (KeyValueStore.GetKinds (failingNative 5 "IO error") openedFailing).2 =
      .error (.nativeRocksException 5 "IO error") ∧
    (KeyValueStore.Compact (failingNative 5 "IO error") openedFailing (some ⟨0, some 3⟩)).2 =
      .error (.RocksDbException 5 "IO error") ∧
    (KeyValueStore.Get (failingNative 5 "IO error") openedFailing (some ⟨0, some 3⟩) [1]).2 =
      .error (.RocksDbException 5 "IO error") :=
  ⟨rfl, rfl, rfl, rfl, rfl⟩

/-! ## Supporting facts: the handle invariant and the handlers -/

/-- What the handlers after a `try` block let out is a `RocksDbException` with the
code and message of the native one, or the generic `Exception`. -/
theorem translate_error {α : Type} (message : String) (r : NativeOutcome α) (t : Thrown)
    (h : translate message r = .error t) :
    (∃ code what, r = .rocksException code what ∧ t = .RocksDbException code what) ∨
    (r = .otherException ∧ t = .Exception message) := by
  cases r with
  | returned a => cases h
  | rocksException code what =>
    cases h
    exact Or.inl ⟨code, what, rfl, rfl⟩
  | otherException =>
    cases h
    exact Or.inr ⟨rfl, rfl⟩

/-- The constructor hands a native failure on as `RocksDbException` with the same
code and message, or as the generic `Exception`. -/
theorem KeyValueStore.ctor_error {E : Type} (n : Native E) (path : String) (t : Thrown)
    (h : KeyValueStore.ctor n (some path) = .error t) :
    (∃ code what, n.store.create (n.marshal_as path) = .rocksException code what ∧
      t = .RocksDbException code what) ∨
    (n.store.create (n.marshal_as path) = .otherException ∧
      t = .Exception "An unknown error occurred during KeyValueStore initialization.") := by
  simp only [KeyValueStore.ctor] at h
  cases hr : n.store.create (n.marshal_as path) with
  | returned e =>
    rw [hr] at h
    cases h
  | rocksException code what =>
    rw [hr] at h
    cases h
    exact Or.inl ⟨code, what, rfl, rfl⟩
  | otherException =>
    rw [hr] at h
    cases h
    exact Or.inr ⟨rfl, rfl⟩

/-- No member function other than `GetDefaultKind`, `GetOrCreateKind` and
`GetKinds` lets a native exception out untranslated. -/
theorem Op.run_translated {E : Type} (n : Native E) (s : KeyValueStore E) (op : Op)
    (h1 : op ≠ Op.GetDefaultKind) (h2 : ∀ name, op ≠ Op.GetOrCreateKind name)
    (h3 : op ≠ Op.GetKinds) (code : Int) (what : String) :
    (Op.run n s op).2 ≠ .error (.nativeRocksException code what) ∧
    (Op.run n s op).2 ≠ .error .nativeOtherException := by
  have tr : ∀ {α : Type} (f : α → Value) (message : String) (r : NativeOutcome α),
      Except.map f (translate message r) ≠ .error (.nativeRocksException code what) ∧
      Except.map f (translate message r) ≠ .error .nativeOtherException := by
    intro α f message r
    cases r <;> simp [translate, Except.map]
  have tr2 : ∀ (message : String) (r : NativeOutcome bytes),
      Except.map Value.bytes (Except.map wrapBytes (translate message r)) ≠
        .error (.nativeRocksException code what) ∧
      Except.map Value.bytes (Except.map wrapBytes (translate message r)) ≠
        .error .nativeOtherException := by
    intro message r
    cases r <;> simp [translate, Except.map]
  cases hnp : s._nativePtr with
  | none =>
    rw [KeyValueStore.run_of_closed n s hnp op]
    simp
  | some e =>
    cases op with
    | GetDefaultKind => exact absurd rfl h1
    | GetOrCreateKind name => exact absurd rfl (h2 name)
    | GetKinds => exact absurd rfl h3
    | Compact kind =>
      simp only [Op.run, Op.pack, KeyValueStore.Compact, KeyValueStore.ThrowIfDisposed, hnp]
      repeat' split
      all_goals first | exact tr _ _ _ | simp [Except.map]
    | CompactAll =>
      simp only [Op.run, Op.pack, KeyValueStore.CompactAll, KeyValueStore.ThrowIfDisposed, hnp]
      exact tr _ _ _
    | UpdateIfPresent kind key value =>
      simp only [Op.run, Op.pack, KeyValueStore.UpdateIfPresent, KeyValueStore.ThrowIfDisposed, hnp]
      repeat' split
      all_goals first | exact tr2 _ _ | simp [Except.map]
    | PutIfAbsent kind key value =>
      simp only [Op.run, Op.pack, KeyValueStore.PutIfAbsent, KeyValueStore.ThrowIfDisposed, hnp]
      repeat' split
      all_goals first | exact tr _ _ _ | simp [Except.map]
    | Put kind key value =>
      simp only [Op.run, Op.pack, KeyValueStore.Put, KeyValueStore.ThrowIfDisposed, hnp]
      repeat' split
      all_goals first | exact tr _ _ _ | simp [Except.map]
    | Get kind key =>
      simp only [Op.run, Op.pack, KeyValueStore.Get, KeyValueStore.ThrowIfDisposed, hnp]
      repeat' split
      all_goals first | exact tr2 _ _ | simp [Except.map]
    | SingleRemoveIfPresent kind key =>
      simp only [Op.run, Op.pack, KeyValueStore.SingleRemoveIfPresent, KeyValueStore.ThrowIfDisposed, hnp]
      repeat' split
      all_goals first | exact tr2 _ _ | simp [Except.map]
    | RemoveIfPresent kind key =>
      simp only [Op.run, Op.pack, KeyValueStore.RemoveIfPresent, KeyValueStore.ThrowIfDisposed, hnp]
      repeat' split
      all_goals first | exact tr2 _ _ | simp [Except.map]
    | SingleRemove kind key =>
      simp only [Op.run, Op.pack, KeyValueStore.SingleRemove, KeyValueStore.ThrowIfDisposed, hnp]
      repeat' split
      all_goals first | exact tr _ _ _ | simp [Except.map]
    | Remove kind key =>
      simp only [Op.run, Op.pack, KeyValueStore.Remove, KeyValueStore.ThrowIfDisposed, hnp]
      repeat' split
      all_goals first | exact tr _ _ _ | simp [Except.map]
    | FindMinKey kind =>
      simp only [Op.run, Op.pack, KeyValueStore.FindMinKey, KeyValueStore.ThrowIfDisposed, hnp]
      repeat' split
      all_goals first | exact tr2 _ _ | simp [Except.map]
    | FindMaxKey kind =>
      simp only [Op.run, Op.pack, KeyValueStore.FindMaxKey, KeyValueStore.ThrowIfDisposed, hnp]
      repeat' split
      all_goals first | exact tr2 _ _ | simp [Except.map]

/-- The handle invariant of a store with a handle speaks of the handle and the
engine calls only. -/
theorem KeyValueStore.HandleWF_of_open {E : Type} (s t : KeyValueStore E) (e : E)
    (hs : s._nativePtr = some e) (h : KeyValueStore.HandleWF s)
    (hnp : t._nativePtr.isSome = true)
    (hcalls : t.calls = s.calls ∨ ∃ c, c ≠ NativeCall.destroy ∧ t.calls = s.calls ++ [c]) :
    KeyValueStore.HandleWF t := by
  simp only [KeyValueStore.HandleWF, hs] at h
  cases ht : t._nativePtr with
  | none =>
    rw [ht] at hnp
    cases hnp
  | some e2 =>
    simp only [KeyValueStore.HandleWF, ht]
    rcases hcalls with hc | ⟨c, hne, hc⟩
    · rw [hc]
      exact h
    · rw [hc, List.count_append, h]
      simp [List.count_cons, hne]

/-- `Close` keeps the handle invariant. -/
theorem KeyValueStore.Close_handle {E : Type} (s : KeyValueStore E)
    (h : KeyValueStore.HandleWF s) : KeyValueStore.HandleWF (KeyValueStore.Close s) := by
  obtain ⟨np, kc, al, cs⟩ := s
  cases np with
  | none => exact h
  | some e =>
    simp only [KeyValueStore.HandleWF] at h
    simp only [KeyValueStore.Close, KeyValueStore.Dispose, KeyValueStore.Finalize,
      KeyValueStore.HandleWF]
    refine ⟨by cases kc <;> rfl, ?_⟩
    rw [List.count_append, h]
    rfl

/-- Every member function keeps the handle invariant. -/
theorem Op.run_handle {E : Type} (n : Native E) (s : KeyValueStore E) (op : Op)
    (h : KeyValueStore.HandleWF s) : KeyValueStore.HandleWF (Op.run n s op).1 := by
  cases hnp : s._nativePtr with
  | none =>
    rw [KeyValueStore.run_of_closed n s hnp op]
    exact h
  | some e =>
    have same : KeyValueStore.HandleWF s := h
    have call : ∀ (e2 : E) (c : NativeCall), c ≠ NativeCall.destroy →
        KeyValueStore.HandleWF (KeyValueStore.afterCall s e2 c) := by
      intro e2 c hc
      exact KeyValueStore.HandleWF_of_open s _ e hnp h rfl (Or.inr ⟨c, hc, rfl⟩)
    cases op with
    | GetDefaultKind =>
      simp only [Op.run, Op.pack, KeyValueStore.GetDefaultKind, KeyValueStore.ThrowIfDisposed, hnp]
      cases (n.store.getDefaultKind e).2 with
      | returned p =>
        obtain ⟨k, -, -, -, -, h5, h6⟩ := KeyValueStore.WrapKind_some_spec
          (KeyValueStore.afterCall s (n.store.getDefaultKind e).1 NativeCall.getDefaultKind) p
        exact KeyValueStore.HandleWF_of_open s _ e hnp h (by simp only [uncaught]; rw [h5]; rfl)
          (Or.inr ⟨NativeCall.getDefaultKind, by simp, by simp only [uncaught]; rw [h6]; rfl⟩)
      | rocksException c w => exact call _ _ (by simp)
      | otherException => exact call _ _ (by simp)
    | GetOrCreateKind kindName =>
      simp only [Op.run, Op.pack, KeyValueStore.GetOrCreateKind, KeyValueStore.ThrowIfDisposed,
        hnp]
      cases kindName with
      | none => exact same
      | some name =>
        simp only []
        cases (n.store.getOrCreateKind e (n.marshal_as name)).2 with
        | returned p =>
          obtain ⟨k, -, -, -, -, h5, h6⟩ := KeyValueStore.WrapKind_some_spec
            (KeyValueStore.afterCall s (n.store.getOrCreateKind e (n.marshal_as name)).1
              (NativeCall.getOrCreateKind (n.marshal_as name))) p
          exact KeyValueStore.HandleWF_of_open s _ e hnp h (by simp only [uncaught]; rw [h5]; rfl)
            (Or.inr ⟨NativeCall.getOrCreateKind (n.marshal_as name), by simp, by simp only [uncaught]; rw [h6]; rfl⟩)
        | rocksException c w => exact call _ _ (by simp)
        | otherException => exact call _ _ (by simp)
    | GetKinds =>
      simp only [Op.run, Op.pack, KeyValueStore.GetKinds, KeyValueStore.ThrowIfDisposed, hnp]
      cases (n.store.getKinds e).2 with
      | returned ps =>
        obtain ⟨-, -, h5, h6⟩ := KeyValueStore.wrapEach_spec ps
          (KeyValueStore.afterCall s (n.store.getKinds e).1 NativeCall.getKinds)
        exact KeyValueStore.HandleWF_of_open s _ e hnp h (by simp only [uncaught]; rw [h5]; rfl)
          (Or.inr ⟨NativeCall.getKinds, by simp, by simp only [uncaught]; rw [h6]; rfl⟩)
      | rocksException c w => exact call _ _ (by simp)
      | otherException => exact call _ _ (by simp)
    | Compact kind =>
      simp only [Op.run, Op.pack, KeyValueStore.Compact, KeyValueStore.ThrowIfDisposed, hnp]
      repeat' split
      all_goals first | exact same | exact call _ _ (by simp)
    | CompactAll =>
      simp only [Op.run, Op.pack, KeyValueStore.CompactAll, KeyValueStore.ThrowIfDisposed, hnp]
      exact call _ _ (by simp)
    | UpdateIfPresent kind key value =>
      simp only [Op.run, Op.pack, KeyValueStore.UpdateIfPresent, KeyValueStore.ThrowIfDisposed,
        hnp]
      repeat' split
      all_goals first | exact same | exact call _ _ (by simp)
    | PutIfAbsent kind key value =>
      simp only [Op.run, Op.pack, KeyValueStore.PutIfAbsent, KeyValueStore.ThrowIfDisposed, hnp]
      repeat' split
      all_goals first | exact same | exact call _ _ (by simp)
    | Put kind key value =>
      simp only [Op.run, Op.pack, KeyValueStore.Put, KeyValueStore.ThrowIfDisposed, hnp]
      repeat' split
      all_goals first | exact same | exact call _ _ (by simp)
    | Get kind key =>
      simp only [Op.run, Op.pack, KeyValueStore.Get, KeyValueStore.ThrowIfDisposed, hnp]
      repeat' split
      all_goals first | exact same | exact call _ _ (by simp)
    | SingleRemoveIfPresent kind key =>
      simp only [Op.run, Op.pack, KeyValueStore.SingleRemoveIfPresent,
        KeyValueStore.ThrowIfDisposed, hnp]
      repeat' split
      all_goals first | exact same | exact call _ _ (by simp)
    | RemoveIfPresent kind key =>
      simp only [Op.run, Op.pack, KeyValueStore.RemoveIfPresent, KeyValueStore.ThrowIfDisposed,
        hnp]
      repeat' split
      all_goals first | exact same | exact call _ _ (by simp)
    | SingleRemove kind key =>
      simp only [Op.run, Op.pack, KeyValueStore.SingleRemove, KeyValueStore.ThrowIfDisposed, hnp]
      repeat' split
      all_goals first | exact same | exact call _ _ (by simp)
    | Remove kind key =>
      simp only [Op.run, Op.pack, KeyValueStore.Remove, KeyValueStore.ThrowIfDisposed, hnp]
      repeat' split
      all_goals first | exact same | exact call _ _ (by simp)
    | FindMinKey kind =>
      simp only [Op.run, Op.pack, KeyValueStore.FindMinKey, KeyValueStore.ThrowIfDisposed, hnp]
      repeat' split
      all_goals first | exact same | exact call _ _ (by simp)
    | FindMaxKey kind =>
      simp only [Op.run, Op.pack, KeyValueStore.FindMaxKey, KeyValueStore.ThrowIfDisposed, hnp]
      repeat' split
      all_goals first | exact same | exact call _ _ (by simp)

/-! ## Theorems: round trip through the in-memory engine -/

/-- The in-memory engine finds under a kind and key the value just stored there. -/
theorem MapEngine.find_insert (e : MapEngine) (k : NativeKindPtr) (key value : List Byte) :
    MapEngine.find (MapEngine.insert e k key value) k key = some value := by
  simp [MapEngine.find, MapEngine.insert]

/-- The in-memory engine a constructor call gives holds no value. -/
theorem MapEngine.find_create (path : String) (e : MapEngine)
    (h : MapEngine.store.create path = .returned e) (k : NativeKindPtr) (key : List Byte) :
    MapEngine.find e k key = none := by
  simp only [MapEngine.store, NativeOutcome.returned.injEq] at h
  subst h
  rfl

/-- A number below `2 ^ 31` is narrowed to itself. -/
theorem toInt32_of_lt (n : Nat) (h : n < 2 ^ 31) : toInt32 n = n := by
  unfold toInt32
  have h1 : n % 2 ^ 32 = n := Nat.mod_eq_of_lt (by omega)
  rw [h1, if_pos h]

/-- The `Span` of a buffer that owns fewer than `2 ^ 31` bytes is those bytes. -/
theorem NativeBytes.Span_ctor (d : List Byte) (h : d.length < 2 ^ 31) :
    NativeBytes.Span (NativeBytes.ctor (some d)) = .ok d := by
  simp only [NativeBytes.Span, NativeBytes.ctor, Option.getD_some, NativeBytes.region,
    toInt32_of_lt d.length h]
  simp

/-- C11: over the engine modelled as a map from kind and key to value, on an open
store and for a valid kind, `Put` returns, a `Get` of the same key after it
returns a buffer that owns exactly the value put, also when the value is empty,
and whose `Span`, the value being shorter than `2 ^ 31` bytes as every
`ReadOnlySpan<Byte>` is, reads exactly the value; `Get` of a key under which the
engine holds nothing returns a null handle and throws nothing. -/
theorem KeyValueStore.Put_then_Get (n : Native MapEngine) (hstore : n.store = MapEngine.store)
    (s : KeyValueStore MapEngine) (e : MapEngine) (hopen : s._nativePtr = some e)
    (k : Kind) (hvalid : Kind.IsValid n.kind k = true) (key value : List Byte) :
    (KeyValueStore.Put n s (some k) key value).2 = .ok () ∧
    (KeyValueStore.Get n (KeyValueStore.Put n s (some k) key value).1 (some k) key).2 =
      .ok (some (NativeBytes.ctor (some value))) ∧
    (value.length < 2 ^ 31 → NativeBytes.Span (NativeBytes.ctor (some value)) = .ok value) ∧
    (∀ p, k._nativePtr = some p → MapEngine.find e p key = none →
      (KeyValueStore.Get n s (some k) key).2 = .ok none) := by
  obtain ⟨r, pk⟩ := k
  cases pk with
  | none => simp [Kind.IsValid] at hvalid
  | some p =>
    refine ⟨?_, ?_, NativeBytes.Span_ctor value, ?_⟩
    · simp [KeyValueStore.Put, KeyValueStore.ThrowIfDisposed, hopen, hstore, MapEngine.store,
        translate]
    · simp [KeyValueStore.Put, KeyValueStore.Get, KeyValueStore.ThrowIfDisposed, hopen, hstore,
        MapEngine.store, translate, KeyValueStore.afterCall, toStringView_eq,
        MapEngine.find_insert, Except.map, wrapBytes]
    · intro q hq hnone
      cases hq
      simp [KeyValueStore.Get, KeyValueStore.ThrowIfDisposed, hopen, hstore, MapEngine.store,
        translate, toStringView_eq, hnone, Except.map, wrapBytes]

/-- C11 on a store just opened over the in-memory engine: the empty value put under
the key `[1]` of the default kind comes back as a buffer of no bytes. -/
theorem KeyValueStore.Put_then_Get_witness :
    Kind.IsValid mapNative.kind ⟨0, some 0⟩ = true ∧
    (KeyValueStore.Get mapNative
      (KeyValueStore.Put mapNative openedMap (some ⟨0, some 0⟩) [1] []).1
      (some ⟨0, some 0⟩) [1]).2 = .ok (some (NativeBytes.ctor (some []))) ∧
    NativeBytes.Span (NativeBytes.ctor (some [])) = .ok [] ∧
    (KeyValueStore.Get mapNative openedMap (some ⟨0, some 0⟩) [1]).2 = .ok none :=
  have h := KeyValueStore.Put_then_Get mapNative rfl openedMap _ rfl ⟨0, some 0⟩ (by decide) [1] []
  ⟨by decide, h.2.1, h.2.2.1 (by decide), h.2.2.2 0 rfl rfl⟩

/-! ## Theorems: `NativeBytes` -/

/-- After `Dispose` a buffer has no native pointer. -/
theorem NativeBytes.Dispose_nativePtr (x : NativeBytes) : (NativeBytes.Dispose x)._nativePtr = none := by
  unfold NativeBytes.Dispose NativeBytes.Finalize
  split
  · rfl
  · assumption

/-- On a buffer without native pointer `Dispose` does nothing. -/
theorem NativeBytes.Dispose_of_released (x : NativeBytes) (h : x._nativePtr = none) :
    NativeBytes.Dispose x = x := by
  unfold NativeBytes.Dispose NativeBytes.Finalize
  rw [h]

/-- C12, as the code has it: the `Span` of a buffer built from `2 ^ 31` bytes is
not those bytes; the size narrowed to `int` is negative and building the span
throws. -/
theorem NativeBytes.Span_of_large_buffer_throws :
    NativeBytes.Span (NativeBytes.ctor (some (List.replicate 2147483648 0))) =
      .error .ArgumentOutOfRangeException := by
  have h : toInt32 2147483648 = -2147483648 := by decide
  simp only [NativeBytes.Span, NativeBytes.ctor, Option.getD_some, List.length_replicate,
    NativeBytes.region, h]
  rfl

/-- C12, amended: a buffer built from the bytes `d` has nothing freed, and `d` as
its `Span` when `d` is shorter than `2 ^ 31` bytes; after one or more `Dispose`
calls its `Span` is empty, its `ToString` is the empty string and the native
region has been freed exactly once; `Dispose` on a buffer already disposed of
changes nothing. -/
theorem NativeBytes.Dispose_spec (utf8 : List Byte → String) (d : List Byte) (k : Nat)
    (x : NativeBytes) :
    (d.length < 2 ^ 31 → NativeBytes.Span (NativeBytes.ctor (some d)) = .ok d) ∧
    (NativeBytes.ctor (some d)).deleted = 0 ∧
    NativeBytes.Span (NativeBytes.Dispose^[k + 1] (NativeBytes.ctor (some d))) = .ok [] ∧
    NativeBytes.ToString utf8 (NativeBytes.Dispose^[k + 1] (NativeBytes.ctor (some d))) =
      .ok "" ∧
    (NativeBytes.Dispose^[k + 1] (NativeBytes.ctor (some d))).deleted = 1 ∧
    NativeBytes.Dispose^[k + 1] (NativeBytes.ctor (some d)) =
      { _nativePtr := none, deleted := 1 } ∧
    NativeBytes.Dispose (NativeBytes.Dispose x) = NativeBytes.Dispose x := by
  have hfix : ∀ y : NativeBytes,
      NativeBytes.Dispose (NativeBytes.Dispose y) = NativeBytes.Dispose y :=
    fun y => NativeBytes.Dispose_of_released _ (NativeBytes.Dispose_nativePtr y)
  have hiter : NativeBytes.Dispose^[k + 1] (NativeBytes.ctor (some d)) =
      { _nativePtr := none, deleted := 1 } := by
    rw [Function.iterate_succ_apply]
    have h1 : NativeBytes.Dispose (NativeBytes.ctor (some d)) =
        { _nativePtr := none, deleted := 1 } := rfl
    rw [h1]
    exact Function.iterate_fixed (NativeBytes.Dispose_of_released _ rfl) k
  refine ⟨NativeBytes.Span_ctor d, rfl, ?_, ?_, ?_, hiter, hfix x⟩
  · rw [hiter]
    rfl
  · rw [hiter]
    rfl
  · rw [hiter]

/-- C12, amended, on a buffer built from the three bytes `1, 2, 3`: its `Span`
before release, and its state after two `Dispose` calls. -/
theorem NativeBytes.Dispose_spec_witness :
    NativeBytes.Span (NativeBytes.ctor (some [1, 2, 3])) = .ok [1, 2, 3] ∧
    NativeBytes.Dispose^[2] (NativeBytes.ctor (some [1, 2, 3])) =
      { _nativePtr := none, deleted := 1 } :=
  have h := NativeBytes.Dispose_spec (fun _ => "") [1, 2, 3] 1 (NativeBytes.ctor none)
  ⟨h.1 (by decide), h.2.2.2.2.2.1⟩

/-! ## Theorems: `WrapKind` executed by several threads -/

/-- A thread that runs the four statements of `WrapKind` without another thread in
between returns what `WrapKind` returns and leaves the cache and the managed
heap as `WrapKind` leaves them. -/
theorem WrapThreads.run_alone {E : Type} (s : KeyValueStore E) (arg : Option NativeKindPtr) :
    (WrapThreads.run (WrapThreads.start s [arg]) [0, 0, 0, 0]).threads =
      [WrapThread.returned arg (KeyValueStore.WrapKind s arg).2] ∧
    (WrapThreads.run (WrapThreads.start s [arg]) [0, 0, 0, 0]).cache =
      (KeyValueStore.WrapKind s arg).1._kindCache ∧
    (WrapThreads.run (WrapThreads.start s [arg]) [0, 0, 0, 0]).shared.allocated =
      (KeyValueStore.WrapKind s arg).1.allocated := by
  obtain ⟨np, kc, al, cs⟩ := s
  cases arg with
  | none =>
    cases kc <;>
      simp [WrapThreads.run, WrapThreads.step, WrapThreads.start, WrapThread.step,
        WrapThreads.cache, KeyValueStore.WrapKind]
  | some key =>
    cases kc with
    | none =>
      simp [WrapThreads.run, WrapThreads.step, WrapThreads.start, WrapThread.step,
        WrapThreads.cache, KeyValueStore.WrapKind, KeyValueStore.CreateKindWrapper]
    | some d =>
      cases hl : d.lookup key with
      | some k =>
        simp [WrapThreads.run, WrapThreads.step, WrapThreads.start, WrapThread.step,
          WrapThreads.cache, KeyValueStore.WrapKind, hl]
      | none =>
        simp [WrapThreads.run, WrapThreads.step, WrapThreads.start, WrapThread.step,
          WrapThreads.cache, KeyValueStore.WrapKind, KeyValueStore.CreateKindWrapper, hl]

/-- C13, at the failing input: two threads look up the default kind on a store just
opened, and each tests `_kindCache` before the other has assigned it. Each then
creates a dictionary of its own; the first thread is returned the wrapper at
managed address `0`, the second the wrapper at address `1`, and the dictionary
the field refers to at the end holds only the second. -/
theorem WrapThreads.first_access_race :
    WrapThreads.run (WrapThreads.start openedMap [some 0, some 0]) [0, 1, 0, 1, 0, 0, 1, 1] =
      { shared :=
          { dictionaries := [[(0, ⟨0, some 0⟩)], [(0, ⟨1, some 0⟩)]],
            _kindCache := some 1,
            allocated := 2 },
        threads :=
          [WrapThread.returned (some 0) (some ⟨0, some 0⟩),
           WrapThread.returned (some 0) (some ⟨1, some 0⟩)] } := by
  decide

/-- Once the cache exists, a step of any thread keeps it in existence, keeps its
entries, and keeps every returned thread in agreement with it. -/
theorem WrapThreads.step_settled (sys : WrapThreads) (i a : Nat)
    (d : List (NativeKindPtr × Kind)) (h : WrapThreads.Settled sys a d) :
    ∃ d2, WrapThreads.Settled (WrapThreads.step sys i) a d2 ∧
      ∀ q k, d.lookup q = some k → d2.lookup q = some k := by
  obtain ⟨hc, ha, hd, hall⟩ := h
  unfold WrapThreads.step
  cases hti : sys.threads[i]? with
  | none => exact ⟨d, ⟨hc, ha, hd, hall⟩, fun _ _ hk => hk⟩
  | some t =>
    have htmem : t ∈ sys.threads := List.getElem?_mem hti
    obtain ⟨hncreate, hnnull, hret⟩ := hall t htmem
    have others : ∀ (t2 : WrapThread) (d2 : List (NativeKindPtr × Kind)),
        (∀ q k, d.lookup q = some k → d2.lookup q = some k) →
        ((∀ key, t2 ≠ WrapThread.create key) ∧ t2 ≠ WrapThread.nullReference ∧
          ∀ p r, t2 = WrapThread.returned (some p) r → ∃ k, r = some k ∧ d2.lookup p = some k) →
        ∀ u ∈ sys.threads.set i t2, (∀ key, u ≠ WrapThread.create key) ∧
          u ≠ WrapThread.nullReference ∧
          ∀ p r, u = WrapThread.returned (some p) r → ∃ k, r = some k ∧ d2.lookup p = some k := by
      intro t2 d2 hmono ht2 u hu
      rcases List.mem_or_eq_of_mem_set hu with hu | hu
      · obtain ⟨h1, h2, h3⟩ := hall u hu
        refine ⟨h1, h2, ?_⟩
        intro p r hpr
        obtain ⟨k, hk, hl⟩ := h3 p r hpr
        exact ⟨k, hk, hmono p k hl⟩
      · rw [hu]
        exact ht2
    cases t with
    | entry nativePtr =>
      cases nativePtr with
      | none =>
        simp only [WrapThread.step]
        refine ⟨d, ⟨hc, ha, hd, ?_⟩, fun _ _ hk => hk⟩
        apply others _ d (fun _ _ hk => hk)
        refine ⟨by simp, by simp, ?_⟩
        intro p r hpr
        cases hpr
      | some key =>
        simp only [WrapThread.step]
        refine ⟨d, ⟨hc, ha, hd, ?_⟩, fun _ _ hk => hk⟩
        apply others _ d (fun _ _ hk => hk)
        refine ⟨by simp, by simp, ?_⟩
        intro p r hpr
        cases hpr
    | test key =>
      simp only [WrapThread.step, hc]
      refine ⟨d, ⟨hc, ha, hd, ?_⟩, fun _ _ hk => hk⟩
      apply others _ d (fun _ _ hk => hk)
      refine ⟨by simp, by simp, ?_⟩
      intro p r hpr
      cases hpr
    | create key => exact absurd rfl (hncreate key)
    | getOrAdd key =>
      simp only [WrapThread.step, hc, hd]
      cases hl : d.lookup key with
      | some k =>
        refine ⟨d, ⟨hc, ha, hd, ?_⟩, fun _ _ hk => hk⟩
        apply others _ d (fun _ _ hk => hk)
        refine ⟨by simp, by simp, ?_⟩
        intro p r hpr
        simp only [WrapThread.returned.injEq, Option.some.injEq] at hpr
        obtain ⟨hp, hr⟩ := hpr
        subst hp
        exact ⟨k, hr.symm, hl⟩
      | none =>
        have hmono : ∀ q k, d.lookup q = some k →
            (d ++ [(key, (⟨sys.shared.allocated, some key⟩ : Kind))]).lookup q = some k := by
          intro q k hk
          rw [List.lookup_append, hk]
          rfl
        refine ⟨d ++ [(key, ⟨sys.shared.allocated, some key⟩)], ⟨rfl, ?_, ?_, ?_⟩, hmono⟩
        · simpa using ha
        · simp [List.getD, ha]
        · apply others _ _ hmono
          refine ⟨by simp, by simp, ?_⟩
          intro p r hpr
          simp only [WrapThread.returned.injEq, Option.some.injEq] at hpr
          obtain ⟨hp, hr⟩ := hpr
          subst hp
          refine ⟨_, hr.symm, ?_⟩
          rw [List.lookup_append, hl]
          simp [List.lookup]
    | returned nativePtr result =>
      simp only [WrapThread.step]
      refine ⟨d, ⟨hc, ha, hd, ?_⟩, fun _ _ hk => hk⟩
      apply others _ d (fun _ _ hk => hk)
      exact ⟨hncreate, hnnull, hret⟩
    | nullReference => exact absurd rfl hnnull

/-- Once the cache exists, every interleaving keeps it in existence, keeps its
entries, and keeps every returned thread in agreement with it. -/
theorem WrapThreads.run_settled (schedule : List Nat) (sys : WrapThreads) (a : Nat)
    (d : List (NativeKindPtr × Kind)) (h : WrapThreads.Settled sys a d) :
    ∃ d2, WrapThreads.Settled (WrapThreads.run sys schedule) a d2 ∧
      ∀ q k, d.lookup q = some k → d2.lookup q = some k := by
  induction schedule generalizing sys d with
  | nil => exact ⟨d, h, fun _ _ hk => hk⟩
  | cons i rest ih =>
    obtain ⟨d1, h1, m1⟩ := WrapThreads.step_settled sys i a d h
    obtain ⟨d2, h2, m2⟩ := ih (WrapThreads.step sys i) d1 h1
    exact ⟨d2, h2, fun q k hk => m2 q k (m1 q k hk)⟩

/-- On a store whose kind cache exists, under every interleaving, any two threads
that have returned from `WrapKind` for the same native identity have returned
the same wrapper, which is the entry of the cache for that identity, and the
entries the cache had before are still there. Each statement of `WrapKind`,
`GetOrAdd` included, is one step of the interleaving. -/
theorem WrapThreads.same_wrapper_once_cache_exists {E : Type} (s : KeyValueStore E)
    (d : List (NativeKindPtr × Kind)) (hcache : s._kindCache = some d)
    (args : List (Option NativeKindPtr)) (schedule : List Nat) :
    ∃ d2, (WrapThreads.run (WrapThreads.start s args) schedule).cache = some d2 ∧
      (∀ q k, d.lookup q = some k → d2.lookup q = some k) ∧
      ∀ p r1 r2,
        WrapThread.returned (some p) r1 ∈
          (WrapThreads.run (WrapThreads.start s args) schedule).threads →
        WrapThread.returned (some p) r2 ∈
          (WrapThreads.run (WrapThreads.start s args) schedule).threads →
        r1 = r2 ∧ r1 = d2.lookup p ∧ r1 ≠ none := by
  have h0 : WrapThreads.Settled (WrapThreads.start s args) 0 d := by
    refine ⟨?_, ?_, ?_, ?_⟩
    · simp [WrapThreads.start, hcache]
    · simp [WrapThreads.start, hcache]
    · simp [WrapThreads.start, hcache]
    · intro t ht
      simp only [WrapThreads.start, List.mem_map] at ht
      obtain ⟨arg, -, rfl⟩ := ht
      refine ⟨by simp, by simp, ?_⟩
      intro p r hpr
      cases hpr
  obtain ⟨d2, ⟨hc, ha, hd, hall⟩, hmono⟩ := WrapThreads.run_settled schedule _ 0 d h0
  refine ⟨d2, ?_, hmono, ?_⟩
  · simp only [WrapThreads.cache, hc, hd]
  · intro p r1 r2 h1 h2
    obtain ⟨k1, hk1, hl1⟩ := (hall _ h1).2.2 p r1 rfl
    obtain ⟨k2, hk2, hl2⟩ := (hall _ h2).2.2 p r2 rfl
    rw [hl1] at hl2
    refine ⟨?_, ?_, ?_⟩
    · rw [hk1, hk2, Option.some.inj hl2]
    · rw [hk1, hl1]
    · rw [hk1]
      simp

end librocks.Net
